import Mathlib

/-!
Verification of the rust-grid procedural dungeon generator.

This file shallowly embeds the data model and the operations of the
repository (`src/util/tri.rs`, `src/data/cell.rs`, `src/data/grid.rs`,
`src/gen/cell_auto.rs`, `src/gen/rooms.rs`, `src/gen/room_gen.rs`,
`src/util/geo.rs`) and proves or refutes the specification claims about
them.  Rust machine integers (`usize`) are modelled as `Nat` (grid
coordinates never go negative in the modelled code paths), panics are
modelled as `Option.none`/dedicated error results, and the process-wide
RNG is modelled as an explicit stream of draws passed as a parameter.
-/

set_option maxRecDepth 100000

namespace RustGrid

/-! ## TriState (`src/util/tri.rs`) -/

/-- The three-state boolean from `src/util/tri.rs`. -/
inductive TriState where
  | True
  | False
  | Invalid
deriving DecidableEq, Repr

namespace TriState

/-- `TriState::toggle`: flips `True`/`False`, keeps `Invalid`. -/
def toggle : TriState → TriState
  | .True => .False
  | .False => .True
  | .Invalid => .Invalid

/-- `impl From<bool> for TriState`. -/
def ofBool : Bool → TriState
  | true => .True
  | false => .False

/-- `impl From<TriState> for bool` from `src/util/tri.rs` lines 178–191.
It panics on `Invalid` (modelled as `none`). -/
def toBool : TriState → Option Bool
  | .True => some true
  | .False => some false
  | .Invalid => none

/-- `TriState::is_valid`. -/
def is_valid (t : TriState) : Bool :=
  t ≠ TriState.Invalid

end TriState

/-! ## Cell (`src/data/cell.rs`, the `TriCell` used as `Cell`) -/

/-- A grid cell wrapping a `TriState` (`TriCell` in `src/data/cell.rs`). -/
structure Cell where
  state : TriState
deriving DecidableEq, Repr

namespace Cell

/-- `Cell::new`. -/
def new (t : TriState) : Cell := ⟨t⟩

/-- `Cell::on` (`on` is a Lean keyword, hence the prime). -/
def on' : Cell := ⟨.True⟩

/-- `Cell::off`. -/
def off : Cell := ⟨.False⟩

/-- `Cell::invalid`. -/
def invalid : Cell := ⟨.Invalid⟩

/-- `Cell::is_on`. -/
def is_on (c : Cell) : Bool := c.state = TriState.True

/-- `Cell::is_off`. -/
def is_off (c : Cell) : Bool := c.state = TriState.False

/-- `Cell::is_valid`. -/
def is_valid (c : Cell) : Bool := c.state ≠ TriState.Invalid

/-- `Cell::is_invalid`. -/
def is_invalid (c : Cell) : Bool := c.state = TriState.Invalid

/-- `Cell::toggle` (in-place in Rust; functional here). -/
def toggle (c : Cell) : Cell := ⟨c.state.toggle⟩

end Cell

/-! ## MapGrid (`src/data/grid.rs`) -/

/-- The grid from `src/data/grid.rs`: an optional name, the cached width and
height, and the row-major cell matrix.  The Rust name is a `String`; it is
modelled as a list of characters. -/
structure MapGrid where
  name : Option (List Char)
  width : Nat
  height : Nat
  cells : List (List Cell)
deriving DecidableEq, Repr

/-- Rust `Vec::resize(n, a)`: truncate to `n` elements or pad with copies
of `a`. -/
def listResize {α : Type} (l : List α) (n : Nat) (a : α) : List α :=
  if n ≤ l.length then l.take n else l ++ List.replicate (n - l.length) a

namespace MapGrid

/-- Structural well-formedness: the cached dimensions agree with the cell
matrix (the `MapGrid` invariant maintained by every constructor). -/
def WF (g : MapGrid) : Prop :=
  g.cells.length = g.height ∧ ∀ r ∈ g.cells, r.length = g.width

instance (g : MapGrid) : Decidable g.WF := by
  unfold WF; infer_instance

/-- `MapGrid::new`: all cells `Invalid`, no name.  (The Rust constructor
asserts `3 ≤ width ∧ 3 ≤ height`; every modelled call site checks this
before calling.) -/
def new (w h : Nat) : MapGrid :=
  { name := none, width := w, height := h
    cells := List.replicate h (List.replicate w Cell.invalid) }

/-- `MapGrid::empty`: all cells `Off`, no name. -/
def empty (w h : Nat) : MapGrid :=
  { name := none, width := w, height := h
    cells := List.replicate h (List.replicate w Cell.off) }

/-- `MapGrid::rows` (the height). -/
def rows (g : MapGrid) : Nat := g.height

/-- `MapGrid::cols` (the width). -/
def cols (g : MapGrid) : Nat := g.width

/-- `MapGrid::cell_count`. -/
def cell_count (g : MapGrid) : Nat := g.width * g.height

/-- `MapGrid::cell` (`src/data/grid.rs` lines 903–916): bounds-checked read,
`None` when out of bounds.  In-bounds reads index the matrix (`getD` stands
for the always-in-range index under `WF`). -/
def cell (g : MapGrid) (x y : Nat) : Option Cell :=
  if x ≥ g.width ∨ y ≥ g.height then none
  else some ((g.cells.getD y []).getD x Cell.invalid)

/-- `MapGrid::set_cell` (`src/data/grid.rs` lines 965–976): bounds-checked
write, a no-op (with an error log) when out of bounds. -/
def set_cell (g : MapGrid) (x y : Nat) (c : Cell) : MapGrid :=
  if x ≥ g.width ∨ y ≥ g.height then g
  else { g with cells := g.cells.set y ((g.cells.getD y []).set x c) }

/-- `MapGrid::set_cell_state`. -/
def set_cell_state (g : MapGrid) (x y : Nat) (b : Bool) : MapGrid :=
  g.set_cell x y (Cell.new (TriState.ofBool b))

/-- `MapGrid::set_cell_invalid`. -/
def set_cell_invalid (g : MapGrid) (x y : Nat) : MapGrid :=
  g.set_cell x y Cell.invalid

/-- `MapGrid::toggle_cell`: toggles through `cell_mut`, which is `None`
(and hence a no-op) out of bounds. -/
def toggle_cell (g : MapGrid) (x y : Nat) : MapGrid :=
  if x ≥ g.width ∨ y ≥ g.height then g
  else
    { g with
      cells := g.cells.set y
        ((g.cells.getD y []).set x ((g.cells.getD y []).getD x Cell.invalid).toggle) }

/-- All cells of the grid in row-major order (`MapGrid::iter`). -/
def allCells (g : MapGrid) : List Cell := g.cells.flatten

/-- `MapGrid::on_cells_count`. -/
def on_cells_count (g : MapGrid) : Nat :=
  (g.allCells.filter (fun c => c.is_on)).length

/-- `MapGrid::off_cells_count`. -/
def off_cells_count (g : MapGrid) : Nat :=
  (g.allCells.filter (fun c => c.is_off)).length

/-- `MapGrid::invalid_cells_count`. -/
def invalid_cells_count (g : MapGrid) : Nat :=
  (g.allCells.filter (fun c => c.is_invalid)).length

/-- `MapGrid::resize_rows_with` (`src/data/grid.rs` lines 1269–1298):
resizes every row (changing the WIDTH) to `n`, clamped to at least 3,
padding with `c`; early-outs when the clamped size equals the current
width. -/
def resize_rows_with (g : MapGrid) (n : Nat) (c : Cell) : MapGrid :=
  let safe := if n < 3 then 3 else n
  if safe = g.cols then g
  else { g with cells := g.cells.map (fun row => listResize row safe c), width := safe }

/-- `MapGrid::resize_cols_with` (`src/data/grid.rs` lines 1324–1351):
resizes the row list (changing the HEIGHT) to `n`, clamped to at least 3,
padding with fresh rows of `c`; early-outs when the clamped size equals the
current height. -/
def resize_cols_with (g : MapGrid) (n : Nat) (c : Cell) : MapGrid :=
  let safe := if n < 3 then 3 else n
  if safe = g.rows then g
  else { g with cells := listResize g.cells safe (List.replicate g.cols c), height := safe }

/-- `MapGrid::resize_with` (`src/data/grid.rs` lines 428–436): forwards
`height` to `resize_rows_with` and `width` to `resize_cols_with`, exactly
as the source does. -/
def resize_with (g : MapGrid) (w h : Nat) (c : Cell) : MapGrid :=
  let g1 := if g.width ≠ w then g.resize_rows_with h c else g
  if g1.height ≠ h then g1.resize_cols_with w c else g1

/-- The boolean state reported for an in-bounds cell (`cell.is_on()`). -/
def onAt (g : MapGrid) (x y : Nat) : Bool :=
  ((g.cells.getD y []).getD x Cell.invalid).is_on

end MapGrid

/-! ## GridIterator (`src/data/grid.rs` lines 13–57) -/

/-- One `GridIterator::next` call: the iterator state is the `curr`
position.  The source first increments `curr.0`, wraps to the next row when
it reaches `width` (returning `None` once `curr.1` reaches `height`), and
only then reads `cell(curr)` — so the pre-increment start position `(0,0)`
is never read. -/
def iterNext (g : MapGrid) (c : Nat × Nat) : Option ((Nat × Nat) × Bool) × (Nat × Nat) :=
  if c.1 + 1 ≥ g.width then
    if c.2 + 1 ≥ g.height then (none, (0, c.2 + 1))
    else
      match g.cell 0 (c.2 + 1) with
      | some cl => (some ((0, c.2 + 1), cl.is_on), (0, c.2 + 1))
      | none => (none, (0, c.2 + 1))
  else
    match g.cell (c.1 + 1) c.2 with
    | some cl => (some ((c.1 + 1, c.2), cl.is_on), (c.1 + 1, c.2))
    | none => (none, (c.1 + 1, c.2))

/-- Collect the items produced by repeatedly calling `iterNext`, with fuel
(the iterator stops at the first `None`). -/
def iterItemsGo (g : MapGrid) : Nat → (Nat × Nat) → List ((Nat × Nat) × Bool)
  | 0, _ => []
  | fuel + 1, c =>
    match iterNext g c with
    | (none, _) => []
    | (some it, c') => it :: iterItemsGo g fuel c'

/-- All items yielded by `GridIterator::new(grid)` (state starts at
`(0, 0)`); `width·height` fuel covers the whole run. -/
def iterItems (g : MapGrid) : List ((Nat × Nat) × Bool) :=
  iterItemsGo g (g.width * g.height) (0, 0)

/-- The tail of row `y` strictly after column `x`, as iterator items. -/
def rowFrom (g : MapGrid) (x y : Nat) : List ((Nat × Nat) × Bool) :=
  (List.range' (x + 1) (g.width - 1 - x)).map (fun i => ((i, y), g.onAt i y))

/-- A full row `j` as iterator items. -/
def fullRow (g : MapGrid) (j : Nat) : List ((Nat × Nat) × Bool) :=
  (List.range g.width).map (fun i => ((i, j), g.onAt i j))

/-- All rows strictly below `y` as iterator items. -/
def tailRows (g : MapGrid) (y : Nat) : List ((Nat × Nat) × Bool) :=
  ((List.range' (y + 1) (g.height - 1 - y)).map (fun j => fullRow g j)).flatten

/-- The items yielded from iterator state `(x, y)` onwards. -/
def expectedFrom (g : MapGrid) (x y : Nat) : List ((Nat × Nat) × Bool) :=
  rowFrom g x y ++ tailRows g y

/-! ## Size classification (`src/gen/room_gen.rs` lines 15–248) -/

/-- The classification ordinals from `src/gen/room_gen.rs`. -/
inductive GridClassification where
  | TooSmall
  | Tiny
  | Small
  | Medium
  | Large
  | Huge
  | Oversized
  | Unknown
deriving DecidableEq, Repr

namespace GridClassification

/-- `GridClassification::classify_cols` (`src/gen/room_gen.rs` lines
146–157), translating the Rust `match` arms in order. -/
def classify_cols (cols : Nat) : GridClassification :=
  if 3 ≤ cols ∧ cols ≤ 8 then .TooSmall
  else if 9 ≤ cols ∧ cols ≤ 20 then .Tiny
  else if 21 ≤ cols ∧ cols ≤ 57 then .Small
  else if 58 ≤ cols ∧ cols ≤ 99 then .Medium
  else if 100 ≤ cols ∧ cols ≤ 134 then .Large
  else if 135 ≤ cols ∧ cols ≤ 165 then .Huge
  else if 166 ≤ cols then .Oversized
  else .Unknown

/-- `GridClassification::col_range` (`src/gen/room_gen.rs` lines 159–170),
a half-open `start..stop` range modelled as the pair `(start, stop)`. -/
def col_range : GridClassification → Nat × Nat
  | .TooSmall => (3, 9)
  | .Tiny => (9, 21)
  | .Small => (21, 58)
  | .Medium => (58, 100)
  | .Large => (100, 135)
  | .Huge => (135, 166)
  | .Oversized => (166, 400)
  | .Unknown => (0, 0)

end GridClassification

/-- Membership in a half-open `start..stop` range (Rust `Range<usize>`). -/
def memRange (c : Nat) (r : Nat × Nat) : Prop :=
  r.1 ≤ c ∧ c < r.2

instance (c : Nat) (r : Nat × Nat) : Decidable (memRange c r) := by
  unfold memRange; infer_instance

/-! ## Rectangles (`src/data/types.rs`, euclid `Box2D`) -/

/-- `GridSquare` = `euclid::Box2D<usize>`: min/max corners. -/
structure GridSquare where
  min : Nat × Nat
  max : Nat × Nat
deriving DecidableEq, Repr

/-- The `square` helper from `src/data/types.rs` lines 20–24:
`Box2D::from_origin_and_size(top_left, (x_size, y_size))`, i.e.
`min = top_left`, `max = top_left + size`. -/
def square (tl : Nat × Nat) (xs ys : Nat) : GridSquare :=
  ⟨tl, (tl.1 + xs, tl.2 + ys)⟩

namespace GridSquare

/-- `Box2D::width`. -/
def width (s : GridSquare) : Nat := s.max.1 - s.min.1

/-- `Box2D::height`. -/
def height (s : GridSquare) : Nat := s.max.2 - s.min.2

/-- `Box2D::size`. -/
def size (s : GridSquare) : Nat × Nat := (s.width, s.height)

/-- `Box2D::x_range`, the half-open `min.x..max.x` as an explicit list. -/
def x_range (s : GridSquare) : List Nat := List.range' s.min.1 (s.max.1 - s.min.1)

/-- `Box2D::y_range`. -/
def y_range (s : GridSquare) : List Nat := List.range' s.min.2 (s.max.2 - s.min.2)

/-- `Box2D::center` = `(min + max) / 2` (integer division on `usize`). -/
def center (s : GridSquare) : Nat × Nat :=
  ((s.min.1 + s.max.1) / 2, (s.min.2 + s.max.2) / 2)

/-- `Box2D::intersects`: strict overlap on both axes. -/
def intersects (a b : GridSquare) : Bool :=
  a.min.1 < b.max.1 ∧ a.max.1 > b.min.1 ∧ a.min.2 < b.max.2 ∧ a.max.2 > b.min.2

end GridSquare

/-! ## Neighbor counting and sub-grids (`src/data/grid.rs`) -/

namespace MapGrid

/-- `MapGrid::cell_wrapped` for non-negative coordinates (the only ones the
modelled call sites produce): wraps modulo width/height before reading. -/
def cell_wrapped (g : MapGrid) (x y : Nat) : Option Cell :=
  let xx := if x ≥ g.width then x % g.width else x
  let yy := if y ≥ g.height then y % g.height else y
  g.cell xx yy

/-- `MapGrid::neighbor_positions` (edge-truncating variant). -/
def neighbor_positions (g : MapGrid) (x y : Nat) : List (Nat × Nat) :=
  let xs : List Nat :=
    if x = 0 then [0, 1]
    else if x = g.width - 1 then [g.width - 2, g.width - 1]
    else [x - 1, x, x + 1]
  let ys : List Nat :=
    if y = 0 then [0, 1]
    else if y = g.height - 1 then [g.height - 2, g.height - 1]
    else [y - 1, y, y + 1]
  xs.flatMap (fun xx => ys.filterMap (fun yy =>
    if xx = x ∧ yy = y then none else some (xx, yy)))

/-- `MapGrid::neighbor_positions_wrapping` (`src/data/grid.rs` lines
1063–1105), translated arm for arm (outer loop over `ys`, inner over
`xs`, skipping the centre). -/
def neighbor_positions_wrapping (g : MapGrid) (x y : Nat) : List (Nat × Nat) :=
  let xs : List Nat :=
    if x = 0 then [g.width - 1, 0, 1]
    else [(x - 1) % g.width, x % g.width, (x + 1) % g.width]
  let ys : List Nat :=
    if y = 0 then [g.height - 1, 0, 1]
    else [(y - 1) % g.height, y % g.height, (y + 1) % g.height]
  ys.flatMap (fun yy => xs.filterMap (fun xx =>
    if xx = x ∧ yy = y then none else some (xx, yy)))

/-- `MapGrid::neighbors_with_state`. -/
def neighbors_with_state (g : MapGrid) (x y : Nat) (state : Bool) (wrap : Bool) :
    List (Nat × Nat) :=
  let range := if wrap then g.neighbor_positions_wrapping x y else g.neighbor_positions x y
  range.filter (fun p =>
    match g.cell p.1 p.2 with
    | some c => c.state = TriState.ofBool state
    | none => false)

/-- `MapGrid::active_neighbor_count`. -/
def active_neighbor_count (g : MapGrid) (x y : Nat) (wrapped : Bool) : Nat :=
  (g.neighbors_with_state x y true wrapped).length

/-- `MapGrid::iter_pos`: all `((x, y), cell)` entries, row-major. -/
def iter_pos (g : MapGrid) : List ((Nat × Nat) × Cell) :=
  g.cells.enum.flatMap (fun yr => yr.2.enum.map (fun xc => ((xc.1, yr.1), xc.2)))

/-- `MapGrid::sub_grid` (`src/data/grid.rs` lines 309–339): a fresh
all-`Invalid` grid of the section's size, filled via `cell_wrapped` reads
of the original over the enumerated x/y ranges. -/
def sub_grid (g : MapGrid) (s : GridSquare) : MapGrid :=
  let base := MapGrid.new s.size.1 s.size.2
  let base :=
    { base with name := g.name.map (fun n => ("SubGrid of " : String).toList ++ n) }
  s.x_range.enum.foldl (fun acc tx =>
    s.y_range.enum.foldl (fun acc2 ty =>
      match g.cell_wrapped tx.2 ty.2 with
      | some c => acc2.set_cell tx.1 ty.1 c
      | none => acc2) acc) base

/-- `MapGrid::create_subgrid` (`src/data/grid.rs` lines 1227–1243): panics
(modelled `none`) when the section is smaller than 3×3 or sticks out of the
grid, otherwise delegates to `sub_grid`. -/
def create_subgrid (g : MapGrid) (s : GridSquare) : Option MapGrid :=
  if s.height < 3 ∨ s.width < 3 then none
  else if s.max.1 > g.width ∨ s.max.2 > g.height then none
  else some (g.sub_grid s)

/-- `MapGrid::active_neighbors_n` (`src/data/grid.rs` lines 1152–1183).
For `n ≥ 2` the source builds
`square((x-n, y-n), x+n+1, y+n+1)` — note the sizes `x+n+1`/`y+n+1` — and
counts On cells of that sub-grid, subtracting 1 when the centre is On
(the centre read uses `.expect`, a panic when out of bounds: `none`). -/
def active_neighbors_n (g : MapGrid) (x y n : Nat) : Option Nat :=
  if n = 0 then some 0
  else if n = 1 then some (g.active_neighbor_count x y true)
  else if n * 2 + 1 > g.width ∨ n * 2 + 1 > g.height then some 0
  else
    match g.create_subgrid (square (x - n, y - n) (x + n + 1) (y + n + 1)) with
    | none => none
    | some sub =>
      match g.cell x y with
      | none => none
      | some c => some (sub.on_cells_count - (if c.is_on then 1 else 0))

/-- `MapGrid::create_copy` (`src/data/grid.rs` lines 288–301): an empty
grid of the same size, the name suffixed with " (Copy)" when present, all
cells copied over. -/
def create_copy (g : MapGrid) : MapGrid :=
  let base := MapGrid.empty g.width g.height
  let base := { base with name := g.name.map (fun n => n ++ (" (Copy)" : String).toList) }
  g.iter_pos.foldl (fun acc pc => acc.set_cell pc.1.1 pc.1.2 pc.2) base

end MapGrid

/-- The radius-`n` neighbour count the specification describes: On cells in
the axis-aligned square of side `2n+1` centred on `(x, y)`, minus one when
the centre itself is On.  This definition follows the spec's words (it is
the comparison point for the claim about `active_neighbors_n`), not the
source. -/
def specActiveNeighborsN (g : MapGrid) (x y n : Nat) : Nat :=
  ((List.range' (x - n) (2 * n + 1)).flatMap (fun i =>
    (List.range' (y - n) (2 * n + 1)).filterMap (fun j =>
      match g.cell i j with
      | some c => if c.is_on then some (i, j) else none
      | none => none))).length -
    (if (g.cell x y).elim false Cell.is_on then 1 else 0)

/-! ## Cellular automata (`src/gen/cell_auto.rs`) -/

/-- The `Algorithm` enum from `src/gen/cell_auto.rs`: threshold parameters
or an injected predicate. -/
inductive Algorithm where
  | First (on_min off_min : Nat)
  | Flex (p : (Nat × Nat) → Nat → Bool → Bool)
  | Flex2 (p : (Nat × Nat) → Nat → Nat → Bool → Bool)

/-- The cell visit order of `CellularAutomata::flexible`: `x` outer,
`y` inner (`for x in 0..cols { for y in 0..rows { … } }`). -/
def cellPositionsColMajor (g : MapGrid) : List (Nat × Nat) :=
  (List.range g.cols).flatMap (fun x => (List.range g.rows).map (fun y => (x, y)))

namespace CellularAutomata

/-- One pass of `CellularAutomata::flexible` (`src/gen/cell_auto.rs` lines
197–223): `temp` starts as a copy of the grid; every in-bounds cell's
state is converted to `bool` — a conversion that panics (`none`) on
`Invalid` — and the predicate of (position, wrapped 8-neighbour active
count, state) decides the new boolean state written into `temp`.  The
`else` (skip) branch is reached only when `cell()` is `None`, i.e. never
for in-bounds coordinates. -/
def flexPass (g : MapGrid) (pred : (Nat × Nat) → Nat → Bool → Bool) : Option MapGrid :=
  (cellPositionsColMajor g).foldlM (fun temp p =>
    match g.cell p.1 p.2 with
    | some c =>
      match c.state.toBool with
      | none => none
      | some b =>
        some (temp.set_cell_state p.1 p.2 (pred p (g.active_neighbor_count p.1 p.2 true) b))
    | none => some temp)
    g.create_copy

/-- One pass of `CellularAutomata::flexible2`: additionally feeds the
radius-2 `active_neighbors_n` count to the predicate. -/
def flexPass2 (g : MapGrid) (pred : (Nat × Nat) → Nat → Nat → Bool → Bool) : Option MapGrid :=
  (cellPositionsColMajor g).foldlM (fun temp p =>
    match g.cell p.1 p.2 with
    | some c =>
      match c.state.toBool with
      | none => none
      | some b =>
        match g.active_neighbors_n p.1 p.2 2 with
        | none => none
        | some n2 =>
          some (temp.set_cell_state p.1 p.2
            (pred p (g.active_neighbor_count p.1 p.2 true) n2 b))
    | none => some temp)
    g.create_copy

/-- The pass loop shared by `flexible`/`flexible2`. -/
def passLoop (step : MapGrid → Option MapGrid) : Nat → MapGrid → Option MapGrid
  | 0, g => some g
  | p + 1, g =>
    match step g with
    | none => none
    | some g' => passLoop step p g'

/-- `CellularAutomata::flexible` without history: zero passes returns a
copy; otherwise the per-pass rewrite runs `passes` times (a panic in any
pass aborts: `none`). -/
def flexible (g : MapGrid) (passes : Nat) (pred : (Nat × Nat) → Nat → Bool → Bool) :
    Option MapGrid :=
  if passes < 1 then some g.create_copy
  else passLoop (fun gr => flexPass gr pred) passes g.create_copy

/-- `CellularAutomata::flexible2` without history. -/
def flexible2 (g : MapGrid) (passes : Nat) (pred : (Nat × Nat) → Nat → Nat → Bool → Bool) :
    Option MapGrid :=
  if passes < 1 then some g.create_copy
  else passLoop (fun gr => flexPass2 gr pred) passes g.create_copy

/-- The pass loop with history capture (`track_changes = true`). -/
def passLoopH (step : MapGrid → Option MapGrid) :
    Nat → MapGrid → List MapGrid → Option (MapGrid × List MapGrid)
  | 0, g, acc => some (g, acc)
  | p + 1, g, acc =>
    match step g with
    | none => none
    | some g' => passLoopH step p g' (acc ++ [g'.create_copy])

/-- The threshold predicate of `CellularAutomata::first`: an On cell stays
On when its active count reaches `on_min`; an Off cell turns On when it
reaches `off_min`. -/
def firstPred (on_min off_min : Nat) : (Nat × Nat) → Nat → Bool → Bool :=
  fun _ n s => if s then n ≥ on_min else n ≥ off_min

/-- `CellularAutomata::execute_on` (`src/gen/cell_auto.rs` lines 77–91). -/
def execute_on (g : MapGrid) (passes : Nat) (alg : Algorithm) : Option MapGrid :=
  match alg with
  | .First o f => flexible g passes (firstPred o f)
  | .Flex p => flexible g passes p
  | .Flex2 p => flexible2 g passes p

/-- `CellularAutomata::execute_with_history` (`src/gen/cell_auto.rs` lines
96–111): like `execute_on` but capturing a copy of the grid after every
pass, starting with the pass-0 input copy. -/
def execute_with_history (g : MapGrid) (passes : Nat) (alg : Algorithm) :
    Option (MapGrid × List MapGrid) :=
  let step : MapGrid → Option MapGrid :=
    match alg with
    | .First o f => fun gr => flexPass gr (firstPred o f)
    | .Flex p => fun gr => flexPass gr p
    | .Flex2 p => fun gr => flexPass2 gr p
  if passes < 1 then some (g.create_copy, [])
  else passLoopH step passes g.create_copy [g.create_copy.create_copy]

end CellularAutomata

/-! ## Rooms (`src/gen/rooms.rs`) -/

/-- `Room` from `src/gen/rooms.rs`: a newtype over a `GridSquare`. -/
structure Room where
  square : GridSquare
deriving DecidableEq, Repr

namespace Room

/-- `Room::new(upper_left, width, height)`. -/
def new (ul : Nat × Nat) (w h : Nat) : Room :=
  ⟨RustGrid.square ul w h⟩

/-- `Room::intersects` (via `Room::check_intersects`, which delegates to
`Box2D::intersects`). -/
def intersects (a b : Room) : Bool :=
  a.square.intersects b.square

end Room

/-! ## Room generator (`src/gen/room_gen.rs`) -/

/-- A sampled candidate room: the four RNG draws (x, y, w, h) of one tier
loop iteration. -/
structure Candidate where
  x : Nat
  y : Nat
  w : Nat
  h : Nat
deriving DecidableEq, Repr

/-- The observable state of one placement-tier loop: finished normally,
aborted by the `assert!(iters <= 10000)` (a fatal error), or still
iterating when the observation fuel ran out. -/
inductive TierOutcome where
  | done (rooms : List Room)
  | fatal (iters : Nat) (rooms : List Room)
  | running (iters : Nat) (rooms : List Room)
deriving DecidableEq, Repr

/-- The huge-room tier loop of `RoomBasedGen::tiered_heuristic`
(`src/gen/room_gen.rs` lines 698–747), with the RNG modelled as the
candidate stream `s`.  Each iteration increments `iters`, samples a
candidate, and rejects it (plain `continue`, no ceiling check) when it
leaves the map, is too small, or collides with an accepted room; only
after a room is *pushed* does the source run
`assert!(iters <= 10000, …)`, modelled as the `fatal` outcome. -/
def hugeTierLoop (mW mH target : Nat) (s : Nat → Candidate) :
    Nat → Nat → List Room → Nat → TierOutcome
  | 0, _, rooms, iters => .running iters rooms
  | fuel + 1, k, rooms, iters =>
    if rooms.length < target then
      let it := iters + 1
      let c := s k
      if c.x + c.w ≥ mW ∨ c.y + c.h ≥ mH then
        hugeTierLoop mW mH target s fuel (k + 1) rooms it
      else if c.x + c.w < 3 ∨ c.y + c.h < 3 then
        hugeTierLoop mW mH target s fuel (k + 1) rooms it
      else
        let room := Room.new (c.x, c.y) c.w c.h
        if rooms.any (fun r => room.intersects r) then
          hugeTierLoop mW mH target s fuel (k + 1) rooms it
        else if it ≤ 10000 then
          hugeTierLoop mW mH target s fuel (k + 1) (rooms ++ [room]) it
        else .fatal it (rooms ++ [room])
    else .done rooms

/-- A candidate stream every entry of which is rejected by the
out-of-bounds check on a 20×20 map: `x + w = 24 ≥ 20`. -/
def constReject : Nat → Candidate := fun _ => ⟨19, 0, 5, 5⟩

namespace RoomBasedGen

/-- `RoomBasedGen::horizontal_path`: carves the full row segment between
the two columns (inclusive) at row `y`, writing `true` (On). -/
def horizontal_path (g : MapGrid) (first second y : Nat) : MapGrid :=
  (List.range' (min first second) (max first second + 1 - min first second)).foldl
    (fun acc col => acc.set_cell_state col y true) g

/-- `RoomBasedGen::vertical_path`: the column segment analogue. -/
def vertical_path (g : MapGrid) (first second x : Nat) : MapGrid :=
  (List.range' (min first second) (max first second + 1 - min first second)).foldl
    (fun acc row => acc.set_cell_state x row true) g

/-- `RoomBasedGen::curved_path`: the source obtains the Bézier cell list
from the external `get_curve_between` adapter (floating-point curve
evaluation, out of scope per the spec) and writes each cell `true` (On);
the path list is therefore a parameter here. -/
def curved_path (g : MapGrid) (path : List (Nat × Nat)) : MapGrid :=
  path.foldl (fun acc p => acc.set_cell_state p.1 p.2 true) g

end RoomBasedGen

/-- The RNG draws of one `connect_rooms` call: a curved path (1/3 chance,
with the externally produced cell list), or the L-shaped corridor drawn
row-then-column or column-then-row (50–50). -/
inductive ConnectDraw where
  | curved (path : List (Nat × Nat))
  | rowFirst
  | colFirst

namespace RoomBasedGen

/-- `RoomBasedGen::connect_rooms` (`src/gen/room_gen.rs` lines 589–604)
with the RNG draw made explicit: connects the two room centres
(`Box2D::center`, integer midpoint of min and max). -/
def connect_rooms (g : MapGrid) (first second : Room) (d : ConnectDraw) : MapGrid :=
  let c1 := first.square.center
  let c2 := second.square.center
  match d with
  | .curved path => curved_path g path
  | .rowFirst => vertical_path (horizontal_path g c1.1 c2.1 c1.2) c1.2 c2.2 c2.1
  | .colFirst => horizontal_path (vertical_path g c1.2 c2.2 c2.1) c1.1 c2.1 c1.2

/-- `RoomBasedGen::fill_room_on_grid`: every cell of the room rectangle is
written `true` (On). -/
def fill_room_on_grid (room : Room) (g : MapGrid) : MapGrid :=
  room.square.y_range.foldl (fun acc y =>
    room.square.x_range.foldl (fun acc2 x => acc2.set_cell_state x y true) acc) g

end RoomBasedGen

/-- The cells of a realized connector path: the curve's cell list, or the
row segment plus the column segment of the L-shaped corridor. -/
def connectorCells (first second : Room) (d : ConnectDraw) : List (Nat × Nat) :=
  let c1 := first.square.center
  let c2 := second.square.center
  match d with
  | .curved path => path
  | .rowFirst | .colFirst =>
    (List.range' (min c1.1 c2.1) (max c1.1 c2.1 + 1 - min c1.1 c2.1)).map
      (fun col => (col, c1.2)) ++
    (List.range' (min c1.2 c2.2) (max c1.2 c2.2 + 1 - min c1.2 c2.2)).map
      (fun row => (c2.1, row))

/-- Room (0,0)–(3,3) of the C3 counterexample. -/
def roomA : Room := Room.new (0, 0) 3 3

/-- Room (6,6)–(9,9) of the C3 counterexample. -/
def roomB : Room := Room.new (6, 6) 3 3

/-- The 9×9 grid with `roomA` and `roomB` filled (the "already-filled
grid" the connection pass runs on). -/
def filledGrid : MapGrid :=
  RoomBasedGen.fill_room_on_grid roomB
    (RoomBasedGen.fill_room_on_grid roomA (MapGrid.empty 9 9))

/-! ## `random_fill_percent` (`src/data/grid.rs` lines 228–257) -/

/-- Round to the nearest integer, ties to even (the IEEE-754 rounding of
a real significand to an integer significand). -/
def roundHalfEven (q : ℚ) : ℤ :=
  if q - ⌊q⌋ < 1/2 then ⌊q⌋
  else if q - ⌊q⌋ > 1/2 then ⌊q⌋ + 1
  else if ⌊q⌋ % 2 = 0 then ⌊q⌋ else ⌊q⌋ + 1

/-- The IEEE-754 `binary64` rounding of a nonnegative rational: the
significand is rounded to 53 bits, ties to even, at the value's binary
exponent.  This is exact for the whole normal range of `f64`; a subnormal
input (below 2⁻¹⁰²²) is given extra precision here, which is immaterial
once a floor is taken, and the overflow threshold 2¹⁰²⁴ is unreachable
from the modelled `usize` products and percentages in `[0, 1]`. -/
def fl64 (q : ℚ) : ℚ :=
  if q = 0 then 0
  else (roundHalfEven (q * (2:ℚ) ^ ((52:ℤ) - Int.log 2 q)) : ℚ) * (2:ℚ) ^ (Int.log 2 q - 52)

/-- The On-cell target of `random_fill_percent`:
`(((width * height) as f64) * fill_percent.clamp(0.0, 1.0)).floor() as usize`.
The `usize → f64` conversion and the `f64` product each round to the
nearest double (`fl64`); Rust `clamp(0.0, 1.0)` on a double is the exact
`min (max p 0) 1`; `floor` and the cast to `usize` are exact on the
clamped range. -/
def fillTarget (w h : Nat) (p : ℚ) : Nat :=
  (⌊fl64 (fl64 ((w * h : Nat) : ℚ) * (min (max p 0) 1))⌋).toNat

/-- The `f64` closest to 1/9, namely `8006399337547548 · 2⁻⁵⁶`: a valid
fill percentage (it lies in `[0, 1]`), and the double a caller writing
`1.0 / 9.0` actually passes. -/
def pNinth : ℚ := 8006399337547548 / 2 ^ 56

/-- The `while grid.on_cells_count() < target` loop of
`random_fill_percent`: each iteration draws a random in-range cell
position (`random_cell_pos`, modelled as the stream `s` reduced modulo the
dimensions) and sets it On.  Running out of fuel while the loop would
continue is `none` (the Rust loop just keeps running). -/
def fillLoop (w h T : Nat) (s : Nat → Nat × Nat) : Nat → Nat → MapGrid → Option MapGrid
  | 0, _, g => if g.on_cells_count < T then none else some g
  | fuel + 1, k, g =>
    if g.on_cells_count < T then
      fillLoop w h T s fuel (k + 1) (g.set_cell ((s k).1 % w) ((s k).2 % h) Cell.on')
    else some g

/-- `MapGrid::random_fill_percent`: the `empty` constructor's ≥3 assertion
and the `target ≤ cells` assertion are modelled as `none`; then the fill
loop runs. -/
def MapGrid.random_fill_percent (w h : Nat) (p : ℚ) (s : Nat → Nat × Nat) (fuel : Nat) :
    Option MapGrid :=
  if w < 3 ∨ h < 3 then none
  else if fillTarget w h p > w * h then none
  else fillLoop w h (fillTarget w h p) s fuel 0 (MapGrid.empty w h)

/-- A deterministic position stream covering a 10×10 grid row by row. -/
def seqStream : Nat → Nat × Nat := fun k => (k % 10, k / 10)

/-! ## Text rendering and parsing (`src/data/grid.rs` lines 468–615 and 1430–1487) -/

/-- The character a cell renders to (`to_strings_with`'s per-cell choice):
`on` for On, `off` for Off, the invalid marker otherwise. -/
def cellChar (onc offc inv : Char) (c : Cell) : Char :=
  if c.is_on then onc else if c.is_off then offc else inv

/-- `MapGrid::to_strings_with`: one string per row; the invalid marker is
the first of `INVALID_MARKERS = ['X', '@', '!']` that collides with
neither `on` nor `off`. -/
def MapGrid.to_strings_with (g : MapGrid) (onc offc : Char) : List (List Char) :=
  let inv : Char :=
    if 'X' ≠ onc ∧ 'X' ≠ offc then 'X'
    else if '@' ≠ onc ∧ '@' ≠ offc then '@'
    else '!'
  g.cells.map (fun row => row.map (cellChar onc offc inv))

/-- Rust `Vec::join(sep)` for a one-character separator. -/
def joinSep (div : Char) : List (List Char) → List Char
  | [] => []
  | [l] => l
  | l :: ls => l ++ div :: joinSep div ls

/-- `MapGrid::to_string_with`. -/
def MapGrid.to_string_with (g : MapGrid) (onc offc div : Char) : List Char :=
  joinSep div (g.to_strings_with onc offc)

/-- `MapGrid::as_string`: `to_strings()` (on `'#'`, off `'.'`) joined with
newlines. -/
def MapGrid.as_string (g : MapGrid) : List Char :=
  joinSep '\n' (g.to_strings_with '#' '.')

/-- Rust `str::split('\n')`: the list of segments between newlines (always
one more segment than separators). -/
def splitNL : List Char → List (List Char)
  | [] => [[]]
  | c :: rest =>
    if c = '\n' then [] :: splitNL rest
    else
      match splitNL rest with
      | [] => [[c]]
      | h :: t => (c :: h) :: t

/-- Rust `char::is_ascii_whitespace`. -/
def isAsciiWS (c : Char) : Bool :=
  c = ' ' ∨ c = '\t' ∨ c = '\n' ∨ c = '\r' ∨ c = '\x0C'

/-- Fuel-driven worker for `split_ascii_whitespace`. -/
def splitWSGo : Nat → List Char → List (List Char)
  | 0, _ => []
  | _ + 1, [] => []
  | fuel + 1, c :: rest =>
    if isAsciiWS c then splitWSGo fuel rest
    else
      (c :: rest.takeWhile (fun d => !isAsciiWS d)) ::
        splitWSGo fuel (rest.dropWhile (fun d => !isAsciiWS d))

/-- Rust `str::split_ascii_whitespace`: maximal non-whitespace runs. -/
def splitWS (l : List Char) : List (List Char) :=
  splitWSGo l.length l

/-- Rust `str::len` on a list of characters: the total UTF-8 byte count
(`String::len` counts bytes, not characters). -/
def utf8Len (l : List Char) : Nat := (l.map Char.utf8Size).sum

/-- Rust `str::parse::<usize>` restricted to plain digit strings. -/
def parseUsize (l : List Char) : Option Nat :=
  if l ≠ [] ∧ l.all Char.isDigit then
    some (l.foldl (fun acc c => acc * 10 + (c.toNat - 48)) 0)
  else none

/-- The parse errors `parse_string` accumulates (the Rust code collects
human-readable strings; only their identity matters here). -/
inductive ParseErr where
  | emptyInput
  | widthTooSmall
  | heightTooSmall
  | invalidChar (c : Char) (x y : Nat)
deriving DecidableEq, Repr

/-- Rust `str::starts_with(pattern-closure)`: tests the first character
(false on an empty string). -/
def startsWithPred (l : List Char) (p : Char → Bool) : Bool :=
  match l with
  | [] => false
  | c :: _ => p c

/-- One cell of the `parse_string` fill loop: `on` → On, `off` → Off,
`'S'`/`'G'` → Off (start/goal markers), anything else records an error and
marks the cell Invalid. -/
def parseFillCell (onc offc : Char) (x y : Nat) (ch : Char)
    (acc : MapGrid × List ParseErr) : MapGrid × List ParseErr :=
  if ch = onc then (acc.1.set_cell_state x y true, acc.2)
  else if ch = offc then (acc.1.set_cell_state x y false, acc.2)
  else if ch = 'S' ∨ ch = 'G' then (acc.1.set_cell_state x y false, acc.2)
  else (acc.1.set_cell_invalid x y, acc.2 ++ [.invalidChar ch x y])

/-- `MapGrid::parse_string` (`src/data/grid.rs` lines 476–615).  Stages,
exactly as in the source: reject empty input; split on newlines; treat a
leading line whose first character is alphabetic (and neither `on` nor
`off`) as the grid name; treat a leading line whose first character is
numeric (and neither `on` nor `off`) as a `"W H"` dimension line (parse
failures leave the dimension 0); a zero width falls back to the longest
line measured in UTF-8 *bytes* (the Rust code folds over `s.len()`, the
byte length of the line), a zero height to the line count; widths or
heights below 3 are fatal
and returned as errors; otherwise every character of every line writes one
cell of an initially all-`Invalid` grid, collecting per-cell errors, and
the grid is returned only when no error was recorded.  (Rust indexes
`split[0]`, which can only be reached with a non-empty list; the `headD`
here reads the same element.) -/
def MapGrid.parse_string (input : List Char) (onc offc : Char) :
    Except (List ParseErr) MapGrid :=
  if input = [] then .error [.emptyInput]
  else
    let split0 := splitNL input
    let nameSplit :=
      if startsWithPred (split0.headD []) (fun c => c != onc && c != offc && c.isAlpha)
      then ((some (split0.headD []) : Option (List Char)), split0.tail)
      else (none, split0)
    let split1 := nameSplit.2
    let whSplit :=
      if startsWithPred (split1.headD []) (fun c => c != onc && c != offc && c.isDigit)
      then
        let halves := splitWS (split1.headD [])
        if halves.length = 2 then
          ((((parseUsize (halves.getD 0 [])).getD 0, (parseUsize (halves.getD 1 [])).getD 0) :
            Nat × Nat), split1.tail)
        else (((0, 0) : Nat × Nat), split1.tail)
      else (((0, 0) : Nat × Nat), split1)
    let split2 := whSplit.2
    let width :=
      if whSplit.1.1 = 0
      then split2.foldl (fun m l => if utf8Len l > m then utf8Len l else m) 0
      else whSplit.1.1
    let height := if whSplit.1.2 = 0 then split2.length else whSplit.1.2
    let errs0 : List ParseErr :=
      (if width < 3 then [.widthTooSmall] else []) ++
      (if height < 3 then [.heightTooSmall] else [])
    if errs0 ≠ [] then .error errs0
    else
      let g0 : MapGrid := { MapGrid.new width height with name := nameSplit.1 }
      let res := split2.enum.foldl (fun acc yl =>
        yl.2.enum.foldl (fun acc2 xc => parseFillCell onc offc xc.1 yl.1 xc.2 acc2) acc)
        (g0, ([] : List ParseErr))
      if res.2 = [] then .ok res.1 else .error res.2

/-! ## Concrete grids used as failing inputs -/

/-- A 7×7 all-Off grid with a single On cell at (6, 6). -/
def gridOn66 : MapGrid := (MapGrid.empty 7 7).set_cell_state 6 6 true

/-- A 3×3 all-Off grid with an `Invalid` cell at the centre (1, 1). -/
def gridInvalidCenter : MapGrid := (MapGrid.empty 3 3).set_cell_invalid 1 1

/-- A 3×3 unnamed grid with only the centre On (round-trip witness). -/
def gridPlain33 : MapGrid := (MapGrid.empty 3 3).set_cell_state 1 1 true

/-- The same 3×3 grid carrying the name "Foo" (round-trip counterexample,
since `as_string` does not render the name but `MapGrid` equality compares
it). -/
def gridNamed33 : MapGrid := { gridPlain33 with name := some ['F', 'o', 'o'] }

/-- The 6×3 grid `parse_string` actually produces from rendering
`gridPlain33` with the two-byte off character `'é'`: the width fallback
measures the three-character lines as 6 UTF-8 bytes each, while the fill
loop enumerates characters, so the right half of every row keeps the
all-`Invalid` initialisation of `MapGrid::new`. -/
def gridWide63 : MapGrid :=
  { name := none, width := 6, height := 3,
    cells :=
      [[Cell.off, Cell.off, Cell.off, Cell.invalid, Cell.invalid, Cell.invalid],
       [Cell.off, Cell.on', Cell.off, Cell.invalid, Cell.invalid, Cell.invalid],
       [Cell.off, Cell.off, Cell.off, Cell.invalid, Cell.invalid, Cell.invalid]] }

/-! ## Supporting lemmas -/

theorem listGetDSet {α : Type} (l : List α) (n : Nat) (a d : α) (h : n < l.length) :
    (l.set n a).getD n d = a := by
  induction l generalizing n with
  | nil => simp at h
  | cons b t ih =>
    cases n with
    | zero => rfl
    | succ m => simpa [List.getD] using ih m (by simpa using h)

theorem listGetDSetNe {α : Type} (l : List α) (n m : Nat) (a d : α) (h : n ≠ m) :
    (l.set n a).getD m d = l.getD m d := by
  induction l generalizing n m with
  | nil => rfl
  | cons b t ih =>
    cases n with
    | zero =>
      cases m with
      | zero => exact absurd rfl h
      | succ m' => rfl
    | succ n' =>
      cases m with
      | zero => rfl
      | succ m' => simpa [List.getD] using ih n' m' (by omega)

theorem MapGrid.width_set_cell (g : MapGrid) (x y : Nat) (c : Cell) :
    (g.set_cell x y c).width = g.width := by
  unfold MapGrid.set_cell
  split <;> rfl

theorem MapGrid.height_set_cell (g : MapGrid) (x y : Nat) (c : Cell) :
    (g.set_cell x y c).height = g.height := by
  unfold MapGrid.set_cell
  split <;> rfl

theorem MapGrid.name_set_cell (g : MapGrid) (x y : Nat) (c : Cell) :
    (g.set_cell x y c).name = g.name := by
  unfold MapGrid.set_cell
  split <;> rfl

theorem MapGrid.WF_set_cell (g : MapGrid) (x y : Nat) (c : Cell) (h : g.WF) :
    (g.set_cell x y c).WF := by
  unfold MapGrid.set_cell
  split
  · exact h
  · obtain ⟨h1, h2⟩ := h
    rename_i hin
    refine ⟨by simpa using h1, ?_⟩
    intro r hr
    rcases List.mem_or_eq_of_mem_set hr with hr' | rfl
    · exact h2 r hr'
    · rw [List.length_set]
      have hyl : y < g.cells.length := by
        push_neg at hin
        omega
      have : g.cells.getD y [] ∈ g.cells := by
        rw [List.getD_eq_getElem _ _ hyl]
        exact List.getElem_mem hyl
      exact h2 _ this

theorem MapGrid.onAt_set_cell_state_self (g : MapGrid) (x y : Nat)
    (hWF : g.WF) (hx : x < g.width) (hy : y < g.height) :
    (g.set_cell_state x y true).onAt x y = true := by
  obtain ⟨h1, h2⟩ := hWF
  unfold MapGrid.set_cell_state MapGrid.set_cell MapGrid.onAt
  rw [if_neg (by omega)]
  simp only
  have hyl : y < g.cells.length := by omega
  have hxl : x < (g.cells.getD y []).length := by
    rw [List.getD_eq_getElem _ _ hyl]
    rw [h2 _ (List.getElem_mem hyl)]
    exact hx
  rw [listGetDSet _ _ _ _ hyl, listGetDSet _ _ _ _ hxl]
  rfl

theorem MapGrid.onAt_set_cell_state_on_preserve (g : MapGrid) (x y a b : Nat)
    (hWF : g.WF) (ha : a < g.width) (hb : b < g.height)
    (h : g.onAt a b = true) :
    (g.set_cell_state x y true).onAt a b = true := by
  by_cases hxy : x = a ∧ y = b
  · obtain ⟨rfl, rfl⟩ := hxy
    exact g.onAt_set_cell_state_self x y hWF ha hb
  · unfold MapGrid.set_cell_state MapGrid.set_cell
    split
    · exact h
    · unfold MapGrid.onAt at h ⊢
      simp only
      by_cases hyb : y = b
      · subst hyb
        have hxa : x ≠ a := by tauto
        have hyl : y < g.cells.length := by
          rename_i hin
          obtain ⟨h1, _⟩ := hWF
          push_neg at hin
          omega
        rw [listGetDSet _ _ _ _ hyl, listGetDSetNe _ _ _ _ _ hxa]
        exact h
      · rw [listGetDSetNe _ _ _ _ _ hyb]
        exact h

/-- Folding On-writes over a list of positions turns every in-bounds
listed position On and keeps every already-On cell On. -/
theorem onAt_foldl_set_on (l : List (Nat × Nat)) :
    ∀ (g : MapGrid), g.WF →
      ∀ p : Nat × Nat, p.1 < g.width → p.2 < g.height →
        (p ∈ l ∨ g.onAt p.1 p.2 = true) →
        (l.foldl (fun acc q => acc.set_cell_state q.1 q.2 true) g).onAt p.1 p.2 = true := by
  induction l with
  | nil =>
    intro g _ p _ _ hp
    rcases hp with hp | hp
    · cases hp
    · exact hp
  | cons q t ih =>
    intro g hWF p hx hy hp
    simp only [List.foldl_cons]
    have hWF' : (g.set_cell_state q.1 q.2 true).WF :=
      MapGrid.WF_set_cell g q.1 q.2 _ hWF
    have hw' : (g.set_cell_state q.1 q.2 true).width = g.width :=
      MapGrid.width_set_cell g q.1 q.2 _
    have hh' : (g.set_cell_state q.1 q.2 true).height = g.height :=
      MapGrid.height_set_cell g q.1 q.2 _
    apply ih _ hWF' p (by omega) (by omega)
    rcases hp with hp | hp
    · rcases List.mem_cons.mp hp with rfl | hpt
      · exact Or.inr (g.onAt_set_cell_state_self p.1 p.2 hWF hx hy)
      · exact Or.inl hpt
    · exact Or.inr (g.onAt_set_cell_state_on_preserve q.1 q.2 p.1 p.2 hWF hx hy hp)

/-! ## Claim C8: out-of-bounds reads and writes -/

/-- C8: for every grid and every out-of-bounds coordinate, `set_cell`,
`set_cell_state` and `toggle_cell` leave the grid (cells, dimensions and
all) unchanged, and `cell` returns `none` rather than clamping. -/
theorem oob_writes_are_noops (g : MapGrid) (x y : Nat) (c : Cell) (b : Bool)
    (h : g.width ≤ x ∨ g.height ≤ y) :
    g.set_cell x y c = g ∧ g.set_cell_state x y b = g ∧
    g.toggle_cell x y = g ∧ g.cell x y = none := by
  refine ⟨?_, ?_, ?_, ?_⟩ <;>
    simp [MapGrid.set_cell, MapGrid.set_cell_state, MapGrid.toggle_cell, MapGrid.cell, h]

/-- Witness for C8 at a concrete grid and coordinate. -/
theorem oob_writes_are_noops_witness :
    ((MapGrid.empty 3 3).width ≤ 5 ∨ (MapGrid.empty 3 3).height ≤ 0) ∧
    (MapGrid.empty 3 3).set_cell 5 0 Cell.on' = MapGrid.empty 3 3 ∧
    (MapGrid.empty 3 3).set_cell_state 5 0 true = MapGrid.empty 3 3 ∧
    (MapGrid.empty 3 3).toggle_cell 5 0 = MapGrid.empty 3 3 ∧
    (MapGrid.empty 3 3).cell 5 0 = none :=
  ⟨Or.inl (by decide), oob_writes_are_noops (MapGrid.empty 3 3) 5 0 Cell.on' true (Or.inl (by decide))⟩

/-! ## Claim C10: `resize_with` transposes the requested size -/

/-- C10: `resize_with((w, h), cell)` passes `h` to the width-changing
`resize_rows_with` and `w` to the height-changing `resize_cols_with`, so
whenever `w ≠ h`, both are at least 3, and both differ from both current
dimensions, the grid ends up with width `h` and height `w`. -/
theorem resize_with_transposes (g : MapGrid) (w h : Nat) (c : Cell)
    (hw : 3 ≤ w) (hh : 3 ≤ h) (_hne : w ≠ h)
    (h1 : w ≠ g.width) (h2 : w ≠ g.height) (h3 : h ≠ g.width) (h4 : h ≠ g.height) :
    (g.resize_with w h c).width = h ∧ (g.resize_with w h c).height = w := by
  have hh3 : ¬ h < 3 := by omega
  have hw3 : ¬ w < 3 := by omega
  simp only [MapGrid.resize_with, MapGrid.resize_rows_with, MapGrid.resize_cols_with,
    MapGrid.rows, MapGrid.cols, hh3, hw3, if_false]
  have hgw : g.width ≠ w := fun hx => h1 hx.symm
  have hgch : ¬ h = g.width := h3
  simp only [hgw, hgch, if_neg, ite_true, if_false, ne_eq, not_false_iff]
  have hgt : ¬ g.height = h := fun hx => h4 hx.symm
  have hwr : ¬ w = g.height := h2
  simp [hgt, hwr]

/-- Witness for C10: a 3×4 grid resized with target (5, 6) ends up 6 wide
and 5 tall. -/
theorem resize_with_transposes_witness :
    (3 ≤ 5 ∧ 3 ≤ 6 ∧ 5 ≠ 6 ∧
      5 ≠ (MapGrid.empty 3 4).width ∧ 5 ≠ (MapGrid.empty 3 4).height ∧
      6 ≠ (MapGrid.empty 3 4).width ∧ 6 ≠ (MapGrid.empty 3 4).height) ∧
    ((MapGrid.empty 3 4).resize_with 5 6 Cell.off).width = 6 ∧
    ((MapGrid.empty 3 4).resize_with 5 6 Cell.off).height = 5 :=
  ⟨by decide,
   resize_with_transposes (MapGrid.empty 3 4) 5 6 Cell.off (by decide) (by decide)
     (by decide) (by decide) (by decide) (by decide) (by decide)⟩

/-! ## Claim C6: the column classifier -/

/-- C6 (amended): the column classifier follows the documented table
(3–8 TooSmall, 9–20 Tiny, 21–57 Small, 58–99 Medium, 100–134 Large,
135–165 Huge, ≥166 Oversized); the seven ranges are contiguous and
pairwise non-overlapping; and for every `c` with `3 ≤ c < 400` the
half-open `col_range` of `classify_cols c` contains `c`.  (At `c = 400`
and beyond the membership fails: see the counterexample.) -/
theorem classify_cols_table (c : Nat) (h3 : 3 ≤ c) :
    ((c ≤ 8 → GridClassification.classify_cols c = .TooSmall) ∧
     (9 ≤ c ∧ c ≤ 20 → GridClassification.classify_cols c = .Tiny) ∧
     (21 ≤ c ∧ c ≤ 57 → GridClassification.classify_cols c = .Small) ∧
     (58 ≤ c ∧ c ≤ 99 → GridClassification.classify_cols c = .Medium) ∧
     (100 ≤ c ∧ c ≤ 134 → GridClassification.classify_cols c = .Large) ∧
     (135 ≤ c ∧ c ≤ 165 → GridClassification.classify_cols c = .Huge) ∧
     (166 ≤ c → GridClassification.classify_cols c = .Oversized)) ∧
    ((GridClassification.col_range .TooSmall).2 = (GridClassification.col_range .Tiny).1 ∧
     (GridClassification.col_range .Tiny).2 = (GridClassification.col_range .Small).1 ∧
     (GridClassification.col_range .Small).2 = (GridClassification.col_range .Medium).1 ∧
     (GridClassification.col_range .Medium).2 = (GridClassification.col_range .Large).1 ∧
     (GridClassification.col_range .Large).2 = (GridClassification.col_range .Huge).1 ∧
     (GridClassification.col_range .Huge).2 = (GridClassification.col_range .Oversized).1) ∧
    (∀ k k' : GridClassification, k ≠ k' →
      ¬ (memRange c (GridClassification.col_range k) ∧
         memRange c (GridClassification.col_range k'))) ∧
    (c < 400 → memRange c (GridClassification.col_range (GridClassification.classify_cols c))) := by
  refine ⟨⟨?_, ?_, ?_, ?_, ?_, ?_, ?_⟩, by decide, ?_, ?_⟩
  case _ => intro hc; simp only [GridClassification.classify_cols]; split_ifs <;>
    first | rfl | (exfalso; omega)
  case _ => intro hc; simp only [GridClassification.classify_cols]; split_ifs <;>
    first | rfl | (exfalso; omega)
  case _ => intro hc; simp only [GridClassification.classify_cols]; split_ifs <;>
    first | rfl | (exfalso; omega)
  case _ => intro hc; simp only [GridClassification.classify_cols]; split_ifs <;>
    first | rfl | (exfalso; omega)
  case _ => intro hc; simp only [GridClassification.classify_cols]; split_ifs <;>
    first | rfl | (exfalso; omega)
  case _ => intro hc; simp only [GridClassification.classify_cols]; split_ifs <;>
    first | rfl | (exfalso; omega)
  case _ => intro hc; simp only [GridClassification.classify_cols]; split_ifs <;>
    first | rfl | (exfalso; omega)
  case _ =>
    intro k k' hkk hmem
    obtain ⟨⟨a1, a2⟩, b1, b2⟩ := hmem
    cases k <;> cases k' <;>
      simp_all [GridClassification.col_range, memRange] <;> omega
  case _ =>
    intro h400
    simp only [GridClassification.classify_cols]
    split_ifs <;> simp_all [GridClassification.col_range, memRange] <;> omega

/-- Witness for C6 at `c = 3`. -/
theorem classify_cols_table_witness :
    (3 ≤ 3) ∧
    (GridClassification.classify_cols 3 = .TooSmall ∧
     memRange 3 (GridClassification.col_range (GridClassification.classify_cols 3))) := by
  have h := classify_cols_table 3 (by decide)
  exact ⟨by decide, h.1.1 (by decide), h.2.2.2 (by decide)⟩

/-- C6 counterexample: 400 columns classify as `Oversized`, whose half-open
sampling range `166..400` does not contain 400 — refuting the claim's
"for every column count c ≥ 3" membership statement. -/
theorem classify_cols_mem_fails_at_400 :
    GridClassification.classify_cols 400 = .Oversized ∧
    ¬ memRange 400 (GridClassification.col_range (GridClassification.classify_cols 400)) := by
  decide

/-! ## Claim C1: cellular automata on grids with Invalid cells -/

/-- C1 (code bug): on a grid containing an `Invalid` cell, every cellular
automata pass reads the cell through `bool::from(TriState)`, which panics
on `Invalid` (`src/util/tri.rs` line 188) — the "skip" branch in
`CellularAutomata::flexible` is only reachable when `cell()` returns
`None`, which never happens for in-bounds coordinates.  So `execute_on`
and `execute_with_history` abort (modelled `none`) under all three rule
shapes instead of leaving the Invalid cell unchanged, contradicting both
the claim and the function's own doc comment ("invalid cells are ignored
entirely"). -/
theorem cellular_automata_panics_on_invalid :
    gridInvalidCenter.invalid_cells_count = 1 ∧
    CellularAutomata.execute_on gridInvalidCenter 1 (Algorithm.First 4 5) = none ∧
    CellularAutomata.execute_on gridInvalidCenter 1 (Algorithm.Flex (fun _ _ s => s)) = none ∧
    CellularAutomata.execute_on gridInvalidCenter 1 (Algorithm.Flex2 (fun _ _ _ s => s)) = none ∧
    CellularAutomata.execute_with_history gridInvalidCenter 1 (Algorithm.First 4 5) = none := by
  refine ⟨by decide, by decide, ?_, ?_, by decide⟩
  · rfl
  · rfl

/-! ## Claim C5: `active_neighbors_n` window -/

/-- C5 (code bug): `active_neighbors_n(3, 3, 2)` on a 7×7 grid whose only
On cell is (6, 6).  The side-5 window centred on (3, 3) covers rows and
columns 1..=5 only, so the spec-side count is 0; but the source builds
`square((x-n, y-n), x+n+1, y+n+1)` — a window of size `(x+n+1)×(y+n+1)` =
6×6 anchored at (1, 1), reaching (6, 6) — and returns 1. -/
theorem active_neighbors_n_wrong_window :
    gridOn66.active_neighbors_n 3 3 2 = some 1 ∧
    specActiveNeighborsN gridOn66 3 3 2 = 0 := by
  exact ⟨by rfl, by rfl⟩

/-! ## Claim C9: the grid iterator skips the origin -/

theorem iterItemsGo_eq_expected (g : MapGrid) :
    ∀ fuel x y, x < g.width → y < g.height →
      (g.height - 1 - y) * g.width + (g.width - 1 - x) < fuel →
      iterItemsGo g fuel (x, y) = expectedFrom g x y := by
  intro fuel
  induction fuel with
  | zero => intro x y _ _ hm; omega
  | succ fuel ih =>
    intro x y hx hy hm
    by_cases hxw : x + 1 ≥ g.width
    · by_cases hyh : y + 1 ≥ g.height
      · have hrx : g.width - 1 - x = 0 := by omega
        have hry : g.height - 1 - y = 0 := by omega
        simp [iterItemsGo, iterNext, hxw, hyh, expectedFrom, rowFrom, tailRows, hrx, hry]
      · push_neg at hyh
        have hcell : g.cell 0 (y + 1) = some ((g.cells.getD (y + 1) []).getD 0 Cell.invalid) := by
          simp only [MapGrid.cell]
          split_ifs with hc
          · exfalso; omega
          · rfl
        have hstep : iterItemsGo g (fuel + 1) (x, y) =
            ((0, y + 1), g.onAt 0 (y + 1)) :: iterItemsGo g fuel (0, y + 1) := by
          simp [iterItemsGo, iterNext, hxw, Nat.not_le_of_lt hyh, hcell, MapGrid.onAt]
        have harow : g.width - 1 - x = 0 := by omega
        have hk : g.height - 1 - y = (g.height - 1 - (y + 1)) + 1 := by omega
        have hmeas : (g.height - 1 - (y + 1)) * g.width + (g.width - 1 - 0) < fuel := by
          have hmul : (g.height - 1 - y) * g.width =
              (g.height - 1 - (y + 1)) * g.width + g.width := by
            rw [hk, Nat.succ_mul]
          omega
        have hih := ih 0 (y + 1) (by omega) hyh hmeas
        have hfull : fullRow g (y + 1) =
            ((0, y + 1), g.onAt 0 (y + 1)) :: rowFrom g 0 (y + 1) := by
          have hwsplit : g.width = (g.width - 1) + 1 := by omega
          simp only [fullRow, rowFrom, List.range_eq_range', Nat.sub_zero]
          conv_lhs => rw [hwsplit, List.range'_succ]
          simp
        have hexp : expectedFrom g x y =
            ((0, y + 1), g.onAt 0 (y + 1)) :: expectedFrom g 0 (y + 1) := by
          simp only [expectedFrom, rowFrom, tailRows, harow, hk, List.range'_zero,
            List.map_nil, List.nil_append]
          rw [List.range'_succ]
          simp only [List.map_cons, List.flatten_cons, hfull]
          simp [rowFrom]
        rw [hstep, hih, hexp]
    · push_neg at hxw
      have hcell : g.cell (x + 1) y = some ((g.cells.getD y []).getD (x + 1) Cell.invalid) := by
        simp only [MapGrid.cell]
        split_ifs with hc
        · exfalso; omega
        · rfl
      have hstep : iterItemsGo g (fuel + 1) (x, y) =
          ((x + 1, y), g.onAt (x + 1) y) :: iterItemsGo g fuel (x + 1, y) := by
        simp [iterItemsGo, iterNext, Nat.not_le_of_lt hxw, hcell, MapGrid.onAt]
      have hm' : (g.height - 1 - y) * g.width + (g.width - 1 - (x + 1)) < fuel := by omega
      have hih := ih (x + 1) y hxw hy hm'
      rw [hstep, hih]
      have hrow : g.width - 1 - x = (g.width - 1 - (x + 1)) + 1 := by omega
      simp only [expectedFrom, rowFrom, hrow]
      rw [List.range'_succ]
      simp

/-- C9: the by-reference `GridIterator` never yields the origin: it
produces exactly `width·height − 1` items, the first being `(1, 0)`, and
no yielded position is `(0, 0)`. -/
theorem grid_iterator_skips_origin (g : MapGrid) (hw : 3 ≤ g.width) (hh : 3 ≤ g.height) :
    (iterItems g).length = g.width * g.height - 1 ∧
    (iterItems g).head? = some ((1, 0), g.onAt 1 0) ∧
    ∀ p ∈ iterItems g, p.1 ≠ ((0, 0) : Nat × Nat) := by
  have hmulsplit : (g.height - 1) * g.width + g.width = g.height * g.width := by
    rw [Nat.sub_one_mul]
    have hle : g.width ≤ g.height * g.width :=
      Nat.le_mul_of_pos_left g.width (by omega)
    omega
  have hcomm : g.height * g.width = g.width * g.height := Nat.mul_comm _ _
  have heq : iterItems g = expectedFrom g 0 0 := by
    apply iterItemsGo_eq_expected g (g.width * g.height) 0 0 (by omega) (by omega)
    simp only [Nat.sub_zero]
    omega
  have hlenrow : (rowFrom g 0 0).length = g.width - 1 := by
    simp [rowFrom]
  have hlentail : (tailRows g 0).length = (g.height - 1) * g.width := by
    simp only [tailRows, List.length_flatten, List.map_map]
    have hconst : (List.length ∘ fun j => fullRow g j) = fun _ => g.width := by
      funext j
      simp [fullRow]
    rw [hconst, List.map_const', List.sum_replicate, List.length_range']
    simp [Nat.mul_comm]
  refine ⟨?_, ?_, ?_⟩
  · rw [heq]
    simp only [expectedFrom, List.length_append, hlenrow, hlentail]
    omega
  · rw [heq]
    have hsplit : g.width - 1 - 0 = (g.width - 3) + 2 := by omega
    simp only [expectedFrom, rowFrom, hsplit]
    rw [List.range'_succ]
    simp
  · intro p hp
    rw [heq] at hp
    simp only [expectedFrom, List.mem_append] at hp
    rcases hp with hp | hp
    · simp only [rowFrom, List.mem_map] at hp
      obtain ⟨i, hi, rfl⟩ := hp
      rw [List.mem_range'_1] at hi
      simp only [ne_eq, Prod.mk.injEq]
      intro ⟨h1, _⟩
      omega
    · simp only [tailRows, List.mem_flatten, List.mem_map] at hp
      obtain ⟨l, ⟨j, hj, rfl⟩, hpl⟩ := hp
      rw [List.mem_range'_1] at hj
      simp only [fullRow, List.mem_map] at hpl
      obtain ⟨i, _, rfl⟩ := hpl
      simp only [ne_eq, Prod.mk.injEq]
      intro ⟨_, h2⟩
      omega

/-- Witness for C9 on a concrete 3×3 grid. -/
theorem grid_iterator_skips_origin_witness :
    (3 ≤ (MapGrid.empty 3 3).width ∧ 3 ≤ (MapGrid.empty 3 3).height) ∧
    (iterItems (MapGrid.empty 3 3)).length = 3 * 3 - 1 ∧
    (iterItems (MapGrid.empty 3 3)).head? = some ((1, 0), (MapGrid.empty 3 3).onAt 1 0) ∧
    ∀ p ∈ iterItems (MapGrid.empty 3 3), p.1 ≠ ((0, 0) : Nat × Nat) := by
  have h := grid_iterator_skips_origin (MapGrid.empty 3 3) (by decide) (by decide)
  exact ⟨⟨by decide, by decide⟩, h.1, h.2.1, h.2.2⟩

/-! ## Claim C2: the per-tier iteration ceiling -/

theorem hugeTierLoop_constReject (fuel : Nat) :
    ∀ k iters, hugeTierLoop 20 20 1 constReject fuel k [] iters =
      .running (iters + fuel) [] := by
  induction fuel with
  | zero => intro k iters; simp [hugeTierLoop]
  | succ fuel ih =>
    intro k iters
    rw [hugeTierLoop]
    simp only [constReject, List.length_nil]
    rw [if_pos (by decide), if_pos (by norm_num)]
    rw [ih]
    have : iters + 1 + fuel = iters + (fuel + 1) := by omega
    rw [this]

/-- C2 (code bug): the tier retry loop is NOT bounded by 10,000 attempts.
The `assert!(iters <= 10000)` sits after `rooms.push(room)`, so every
rejected candidate `continue`s past it; with a candidate stream whose
every sample is out of bounds (map 20×20, candidates at x=19 with w=5),
the huge-room tier loop of `tiered_heuristic` reaches 20,000 iterations
with no room accepted and no fatal error — it would hang forever. -/
theorem tier_loop_exceeds_ceiling_without_fatal :
    hugeTierLoop 20 20 1 constReject 20000 0 [] 0 = .running 20000 [] ∧
    10000 < 20000 := by
  refine ⟨?_, by norm_num⟩
  have h := hugeTierLoop_constReject 20000 0 0
  simpa using h

/-! ## Claim C3: connector cells are carved as On, not Off -/

/-- C3 counterexample: on the filled 9×9 grid with rooms (0,0)–(3,3) and
(6,6)–(9,9), the realized row-then-column corridor between the centres
(1,1) and (7,7) passes through (4,1), and that cell ends up On — not Off
as the claim states. -/
theorem connector_cell_drawn_on_not_off :
    ((4, 1) ∈ connectorCells roomA roomB ConnectDraw.rowFirst) ∧
    (RoomBasedGen.connect_rooms filledGrid roomA roomB ConnectDraw.rowFirst).cell 4 1 =
      some Cell.on' ∧
    (RoomBasedGen.connect_rooms filledGrid roomA roomB ConnectDraw.rowFirst).cell 4 1 ≠
      some Cell.off := by
  refine ⟨by decide, by decide, by decide⟩

/-- C3 (amended): every in-bounds cell on a realized connector path —
the curved path's cell list or the L-shaped row+column corridor between
the two room centres — is set to On (`true`, a wall) on the already-filled
grid, under either draw order. -/
theorem connector_cells_carved_on (g : MapGrid) (r1 r2 : Room) (d : ConnectDraw)
    (hWF : g.WF) (p : Nat × Nat) (hp : p ∈ connectorCells r1 r2 d)
    (hx : p.1 < g.width) (hy : p.2 < g.height) :
    (RoomBasedGen.connect_rooms g r1 r2 d).onAt p.1 p.2 = true := by
  cases d with
  | curved path =>
    simp only [RoomBasedGen.connect_rooms, RoomBasedGen.curved_path]
    exact onAt_foldl_set_on path g hWF p hx hy (Or.inl hp)
  | rowFirst =>
    have hrw : RoomBasedGen.connect_rooms g r1 r2 ConnectDraw.rowFirst =
        (connectorCells r1 r2 ConnectDraw.rowFirst).foldl
          (fun acc q => acc.set_cell_state q.1 q.2 true) g := by
      simp only [RoomBasedGen.connect_rooms, RoomBasedGen.horizontal_path,
        RoomBasedGen.vertical_path, connectorCells, List.foldl_append, List.foldl_map]
    rw [hrw]
    exact onAt_foldl_set_on _ g hWF p hx hy (Or.inl hp)
  | colFirst =>
    have hrw : RoomBasedGen.connect_rooms g r1 r2 ConnectDraw.colFirst =
        (((List.range' (min (r1.square.center).2 (r2.square.center).2)
            (max (r1.square.center).2 (r2.square.center).2 + 1 -
              min (r1.square.center).2 (r2.square.center).2)).map
            (fun row => ((r2.square.center).1, row))) ++
         ((List.range' (min (r1.square.center).1 (r2.square.center).1)
            (max (r1.square.center).1 (r2.square.center).1 + 1 -
              min (r1.square.center).1 (r2.square.center).1)).map
            (fun col => (col, (r1.square.center).2)))).foldl
          (fun acc q => acc.set_cell_state q.1 q.2 true) g := by
      simp only [RoomBasedGen.connect_rooms, RoomBasedGen.horizontal_path,
        RoomBasedGen.vertical_path, List.foldl_append, List.foldl_map]
    rw [hrw]
    apply onAt_foldl_set_on _ g hWF p hx hy
    left
    simp only [connectorCells, List.mem_append] at hp
    simp only [List.mem_append]
    tauto

/-- Witness for the amended C3 at the concrete counterexample setup. -/
theorem connector_cells_carved_on_witness :
    filledGrid.WF ∧ ((4, 1) ∈ connectorCells roomA roomB ConnectDraw.rowFirst) ∧
    (RoomBasedGen.connect_rooms filledGrid roomA roomB ConnectDraw.rowFirst).onAt 4 1 = true :=
  ⟨by decide, by decide,
    connector_cells_carved_on filledGrid roomA roomB ConnectDraw.rowFirst (by decide)
      (4, 1) (by decide) (by decide) (by decide)⟩

/-! ## Claim C4: fill-percent exactness -/

theorem countP_set_le {α : Type} (l : List α) (i : Nat) (a : α) (q : α → Bool) :
    (l.set i a).countP q ≤ l.countP q + 1 := by
  induction l generalizing i with
  | nil => simp
  | cons b t ih =>
    cases i with
    | zero =>
      simp only [List.set_cons_zero, List.countP_cons]
      split_ifs <;> omega
    | succ j =>
      simp only [List.set_cons_succ, List.countP_cons]
      have := ih j
      split_ifs <;> omega

theorem countP_flatten_set_le {α : Type} (L : List (List α)) (y : Nat) (r' : List α)
    (q : α → Bool) (h : r'.countP q ≤ (L.getD y []).countP q + 1) :
    (L.set y r').flatten.countP q ≤ L.flatten.countP q + 1 := by
  induction L generalizing y with
  | nil => simp
  | cons R L' ih =>
    cases y with
    | zero =>
      simp only [List.set_cons_zero, List.flatten_cons, List.countP_append]
      have h0 : (R :: L').getD 0 [] = R := rfl
      rw [h0] at h
      omega
    | succ j =>
      simp only [List.set_cons_succ, List.flatten_cons, List.countP_append]
      have := ih j (by simpa [List.getD] using h)
      omega

theorem MapGrid.on_cells_count_set_cell_le (g : MapGrid) (x y : Nat) (cc : Cell) :
    (g.set_cell x y cc).on_cells_count ≤ g.on_cells_count + 1 := by
  unfold MapGrid.set_cell
  split
  · omega
  · unfold MapGrid.on_cells_count MapGrid.allCells
    rw [← List.countP_eq_length_filter, ← List.countP_eq_length_filter]
    exact countP_flatten_set_le _ _ _ _ (countP_set_le _ _ _ _)

theorem MapGrid.mem_allCells_set_cell (g : MapGrid) (x y : Nat) (cc c : Cell)
    (hc : c ∈ (g.set_cell x y cc).allCells) : c ∈ g.allCells ∨ c = cc := by
  unfold MapGrid.set_cell at hc
  split at hc
  · exact Or.inl hc
  · unfold MapGrid.allCells at hc ⊢
    rw [List.mem_flatten] at hc
    obtain ⟨r, hr, hcr⟩ := hc
    rcases List.mem_or_eq_of_mem_set hr with hr' | rfl
    · exact Or.inl (List.mem_flatten.mpr ⟨r, hr', hcr⟩)
    · rcases List.mem_or_eq_of_mem_set hcr with hcr' | rfl
      · by_cases hylen : y < g.cells.length
        · refine Or.inl (List.mem_flatten.mpr ⟨g.cells.getD y [], ?_, hcr'⟩)
          rw [List.getD_eq_getElem _ _ hylen]
          exact List.getElem_mem hylen
        · rw [List.getD_eq_default _ _ (by omega)] at hcr'
          cases hcr'
      · exact Or.inr rfl

theorem MapGrid.counts_of_valid (g : MapGrid) (hWF : g.WF)
    (hval : ∀ c ∈ g.allCells, c = Cell.on' ∨ c = Cell.off) :
    g.allCells.length = g.width * g.height ∧
    g.off_cells_count = g.width * g.height - g.on_cells_count ∧
    g.invalid_cells_count = 0 ∧
    g.on_cells_count ≤ g.width * g.height := by
  obtain ⟨h1, h2⟩ := hWF
  have hlen : g.allCells.length = g.width * g.height := by
    unfold MapGrid.allCells
    rw [List.length_flatten]
    have hrep : g.cells.map List.length = List.replicate (g.cells.map List.length).length g.width := by
      apply List.eq_replicate_of_mem
      intro b hb
      rw [List.mem_map] at hb
      obtain ⟨r, hr, rfl⟩ := hb
      exact h2 r hr
    rw [hrep, List.sum_replicate, List.length_map, h1]
    simp [Nat.mul_comm]
  have hsum : g.on_cells_count + g.off_cells_count = g.allCells.length := by
    unfold MapGrid.on_cells_count MapGrid.off_cells_count
    rw [← List.countP_eq_length_filter, ← List.countP_eq_length_filter]
    have hcongr : List.countP (fun c => c.is_off) g.allCells
        = List.countP (fun c => decide ¬((fun d : Cell => d.is_on) c = true)) g.allCells := by
      apply List.countP_congr
      intro c hc
      rcases hval c hc with rfl | rfl <;> rfl
    rw [hcongr]
    exact (List.length_eq_countP_add_countP (fun d : Cell => d.is_on) g.allCells).symm
  have hinv : g.invalid_cells_count = 0 := by
    unfold MapGrid.invalid_cells_count
    rw [← List.countP_eq_length_filter]
    rw [List.countP_eq_zero]
    intro c hc
    rcases hval c hc with rfl | rfl <;> decide
  exact ⟨hlen, by omega, hinv, by omega⟩

theorem MapGrid.empty_WF (w h : Nat) : (MapGrid.empty w h).WF := by
  constructor
  · simp [MapGrid.empty]
  · intro r hr
    simp only [MapGrid.empty] at hr
    rw [List.eq_of_mem_replicate hr]
    simp [MapGrid.empty]

theorem MapGrid.empty_cells_off (w h : Nat) :
    ∀ c ∈ (MapGrid.empty w h).allCells, c = Cell.off := by
  intro c hc
  unfold MapGrid.allCells MapGrid.empty at hc
  rw [List.mem_flatten] at hc
  obtain ⟨r, hr, hcr⟩ := hc
  rw [List.eq_of_mem_replicate hr] at hcr
  exact List.eq_of_mem_replicate hcr

theorem MapGrid.empty_on_count (w h : Nat) : (MapGrid.empty w h).on_cells_count = 0 := by
  unfold MapGrid.on_cells_count
  rw [← List.countP_eq_length_filter, List.countP_eq_zero]
  intro c hc
  rw [MapGrid.empty_cells_off w h c hc]
  decide

theorem int_log_eq_of_bounds (q : ℚ) (e : ℤ) (hq : 0 < q)
    (h1 : (2:ℚ) ^ e ≤ q) (h2 : q < (2:ℚ) ^ (e + 1)) : Int.log 2 q = e := by
  have hb : (1:ℕ) < 2 := by norm_num
  have hc : ((2:ℕ) : ℚ) = (2:ℚ) := by norm_num
  have hle : e ≤ Int.log 2 q := by
    rw [← Int.zpow_le_iff_le_log hb hq, hc]
    exact h1
  have hlt : Int.log 2 q < e + 1 := by
    rw [← Int.lt_zpow_iff_log_lt hb hq, hc]
    exact h2
  omega

theorem roundHalfEven_intCast (n : ℤ) : roundHalfEven (n : ℚ) = n := by
  unfold roundHalfEven
  rw [Int.floor_intCast, if_pos (by norm_num)]

theorem roundHalfEven_int_add_half (n : ℤ) :
    roundHalfEven ((n : ℚ) + 1/2) = if n % 2 = 0 then n else n + 1 := by
  unfold roundHalfEven
  have hfl : ⌊(n : ℚ) + 1/2⌋ = n := by
    rw [add_comm, Int.floor_add_int]
    norm_num
  rw [hfl, if_neg (by norm_num), if_neg (by norm_num)]

theorem fl64_int_exact (q : ℚ) (e m : ℤ) (hq : 0 < q)
    (h1 : (2:ℚ) ^ e ≤ q) (h2 : q < (2:ℚ) ^ (e + 1))
    (hm : q * (2:ℚ) ^ ((52:ℤ) - e) = (m : ℚ)) :
    fl64 q = (m : ℚ) * (2:ℚ) ^ (e - 52) := by
  unfold fl64
  rw [if_neg (ne_of_gt hq), int_log_eq_of_bounds q e hq h1 h2, hm, roundHalfEven_intCast]

theorem fl64_tie_up (q : ℚ) (e m : ℤ) (hq : 0 < q)
    (h1 : (2:ℚ) ^ e ≤ q) (h2 : q < (2:ℚ) ^ (e + 1))
    (hm : q * (2:ℚ) ^ ((52:ℤ) - e) = (m : ℚ) + 1/2) (hodd : m % 2 = 1) :
    fl64 q = ((m : ℚ) + 1) * (2:ℚ) ^ (e - 52) := by
  unfold fl64
  rw [if_neg (ne_of_gt hq), int_log_eq_of_bounds q e hq h1 h2, hm,
    roundHalfEven_int_add_half, if_neg (by omega)]
  push_cast
  ring

theorem fl64_nine : fl64 (9 : ℚ) = 9 := by
  rw [fl64_int_exact 9 3 (9 * 2 ^ 49) (by norm_num) (by norm_num) (by norm_num)
    (by push_cast; norm_num)]
  push_cast
  norm_num

theorem fl64_hundred : fl64 (100 : ℚ) = 100 := by
  rw [fl64_int_exact 100 6 (100 * 2 ^ 46) (by norm_num) (by norm_num) (by norm_num)
    (by push_cast; norm_num)]
  push_cast
  norm_num

theorem fl64_fifty : fl64 (50 : ℚ) = 50 := by
  rw [fl64_int_exact 50 5 (50 * 2 ^ 47) (by norm_num) (by norm_num) (by norm_num)
    (by push_cast; norm_num)]
  push_cast
  norm_num

/-- The double product `9.0 * p` for `p` the closest double to 1/9: the
exact product `9 · pNinth = 1 − 2⁻⁵⁴` scales to the significand
`9007199254740991.5`, an exact tie whose floor is odd, so rounding to
even goes *up* to `2⁵³` and the rounded product is exactly `1.0`. -/
theorem fl64_nine_pNinth : fl64 (9 * pNinth) = 1 := by
  rw [fl64_tie_up (9 * pNinth) (-1) 9007199254740991
    (by norm_num [pNinth]) (by norm_num [pNinth]) (by norm_num [pNinth])
    (by push_cast [pNinth]; norm_num) (by decide)]
  push_cast
  norm_num

theorem fillTarget_33_pNinth : fillTarget 3 3 pNinth = 1 := by
  unfold fillTarget
  rw [max_eq_left (by norm_num [pNinth] : (0:ℚ) ≤ pNinth),
      min_eq_left (by norm_num [pNinth] : pNinth ≤ 1)]
  rw [(by norm_num : ((3 * 3 : Nat) : ℚ) = (9:ℚ)), fl64_nine, fl64_nine_pNinth]
  norm_num

theorem fillTarget_1010_half : fillTarget 10 10 (1/2 : ℚ) = 50 := by
  unfold fillTarget
  rw [max_eq_left (by norm_num : (0:ℚ) ≤ 1/2), min_eq_left (by norm_num : (1:ℚ)/2 ≤ 1)]
  rw [(by norm_num : ((10 * 10 : Nat) : ℚ) = (100:ℚ)), fl64_hundred,
    (by norm_num : (100 : ℚ) * (1/2) = 50), fl64_fifty]
  norm_num
  decide

theorem floor_nine_pNinth : (⌊((3 * 3 : Nat) : ℚ) * pNinth⌋).toNat = 0 := by
  have h : ⌊((3 * 3 : Nat) : ℚ) * pNinth⌋ = 0 := by
    rw [Int.floor_eq_zero_iff, Set.mem_Ico]
    constructor <;> norm_num [pNinth]
  rw [h]
  rfl

theorem fillLoop_spec (w h T : Nat) (s : Nat → Nat × Nat) : ∀ (fuel k : Nat) (g0 g : MapGrid),
    g0.width = w → g0.height = h → g0.WF →
    (∀ c ∈ g0.allCells, c = Cell.on' ∨ c = Cell.off) →
    g0.on_cells_count ≤ T →
    fillLoop w h T s fuel k g0 = some g →
    (g.width = w ∧ g.height = h ∧ g.WF ∧
     (∀ c ∈ g.allCells, c = Cell.on' ∨ c = Cell.off) ∧
     g.on_cells_count = T) := by
  intro fuel
  induction fuel with
  | zero =>
    intro k g0 g hw hh hWF hval hle hrun
    unfold fillLoop at hrun
    split at hrun
    · cases hrun
    · rename_i hge
      obtain rfl : g0 = g := by injection hrun
      exact ⟨hw, hh, hWF, hval, by omega⟩
  | succ fuel ih =>
    intro k g0 g hw hh hWF hval hle hrun
    unfold fillLoop at hrun
    split at hrun
    · rename_i hlt
      refine ih (k + 1) _ g ?_ ?_ ?_ ?_ ?_ hrun
      · rw [MapGrid.width_set_cell]; exact hw
      · rw [MapGrid.height_set_cell]; exact hh
      · exact MapGrid.WF_set_cell _ _ _ _ hWF
      · intro c hc
        rcases MapGrid.mem_allCells_set_cell _ _ _ _ _ hc with hc' | rfl
        · exact hval c hc'
        · exact Or.inl rfl
      · have := MapGrid.on_cells_count_set_cell_le g0 ((s k).1 % w) ((s k).2 % h) Cell.on'
        omega
    · rename_i hge
      obtain rfl : g0 = g := by injection hrun
      exact ⟨hw, hh, hWF, hval, by omega⟩

/-- C4 (amended): whenever the `random_fill_percent` loop terminates (the
RNG loop's termination is probabilistic, so it is a hypothesis here), the
resulting grid has exactly the `f64`-computed target
`⌊fl64 (fl64 (w·h) · p)⌋` On cells and all remaining cells Off (none
Invalid), with the requested dimensions.  The two `fl64` roundings can
push the target across an integer boundary, so this count is *not* in
general the exact `⌊w·h·p⌋` of the claim (see
`random_fill_percent_not_exact_floor`). -/
theorem random_fill_percent_exact (w h : Nat) (p : ℚ) (s : Nat → Nat × Nat) (fuel : Nat)
    (g : MapGrid) (hw : 3 ≤ w) (hh : 3 ≤ h) (hp0 : 0 ≤ p) (hp1 : p ≤ 1)
    (hrun : MapGrid.random_fill_percent w h p s fuel = some g) :
    g.on_cells_count = (⌊fl64 (fl64 ((w * h : Nat) : ℚ) * p)⌋).toNat ∧
    g.off_cells_count = w * h - (⌊fl64 (fl64 ((w * h : Nat) : ℚ) * p)⌋).toNat ∧
    g.invalid_cells_count = 0 ∧ g.width = w ∧ g.height = h := by
  have hclamp : fillTarget w h p = (⌊fl64 (fl64 ((w * h : Nat) : ℚ) * p)⌋).toNat := by
    unfold fillTarget
    rw [max_eq_left hp0, min_eq_left hp1]
  unfold MapGrid.random_fill_percent at hrun
  rw [if_neg (by omega)] at hrun
  split at hrun
  · cases hrun
  · have hspec := fillLoop_spec w h (fillTarget w h p) s fuel 0 (MapGrid.empty w h) g
      rfl rfl (MapGrid.empty_WF w h)
      (fun c hc => Or.inr (MapGrid.empty_cells_off w h c hc))
      (by rw [MapGrid.empty_on_count]; omega) hrun
    obtain ⟨hgw, hgh, hgWF, hgval, hgcount⟩ := hspec
    obtain ⟨hlen, hoff, hinv, hle⟩ := MapGrid.counts_of_valid g hgWF hgval
    refine ⟨?_, ?_, hinv, hgw, hgh⟩
    · rw [hgcount, hclamp]
    · rw [hoff, hgcount, hclamp, hgw, hgh]

/-- Witness for the amended C4: size (10, 10) with p = 1/2 and a
sequential position stream gives exactly 50 On and 50 Off cells (here
all the `f64` steps are exact, so the target agrees with `⌊100 · ½⌋`). -/
theorem random_fill_percent_exact_witness :
    ∃ gr : MapGrid,
      MapGrid.random_fill_percent 10 10 (1/2 : ℚ) seqStream 100 = some gr ∧
      gr.on_cells_count = 50 ∧ gr.off_cells_count = 50 ∧ gr.invalid_cells_count = 0 := by
  have h50 : fillTarget 10 10 (1/2 : ℚ) = 50 := fillTarget_1010_half
  have hfl : (⌊fl64 (fl64 ((10 * 10 : Nat) : ℚ) * (1/2 : ℚ))⌋).toNat = 50 := by
    rw [(by norm_num : ((10 * 10 : Nat) : ℚ) = (100:ℚ)), fl64_hundred,
      (by norm_num : (100 : ℚ) * (1/2) = 50), fl64_fifty]
    norm_num
    decide
  have hsome : (MapGrid.random_fill_percent 10 10 (1/2 : ℚ) seqStream 100).isSome = true := by
    unfold MapGrid.random_fill_percent
    rw [h50, if_neg (by decide), if_neg (by decide)]
    decide
  obtain ⟨gr, hrun⟩ :
      ∃ gr, MapGrid.random_fill_percent 10 10 (1/2 : ℚ) seqStream 100 = some gr :=
    ⟨_, (Option.some_get hsome).symm⟩
  have h := random_fill_percent_exact 10 10 (1/2 : ℚ) seqStream 100 gr
    (by norm_num) (by norm_num) (by norm_num) (by norm_num) hrun
  refine ⟨gr, hrun, ?_, ?_, h.2.2.1⟩
  · rw [h.1, hfl]
  · rw [h.2.1, hfl]

/-- C4 counterexample: at size (3, 3) with `p = pNinth` (the double a
caller writing `1.0 / 9.0` passes, a valid percentage in `[0, 1]`), the
claimed exact count `⌊9 · p⌋` is 0, but the `f64` product `9.0 * p`
rounds up to exactly `1.0`, so the code's target is 1 and the returned
grid has one On cell. -/
theorem random_fill_percent_not_exact_floor :
    0 ≤ pNinth ∧ pNinth ≤ 1 ∧
    (⌊((3 * 3 : Nat) : ℚ) * pNinth⌋).toNat = 0 ∧
    fillTarget 3 3 pNinth = 1 ∧
    MapGrid.random_fill_percent 3 3 pNinth seqStream 20 =
      some ((MapGrid.empty 3 3).set_cell 0 0 Cell.on') ∧
    ((MapGrid.empty 3 3).set_cell 0 0 Cell.on').on_cells_count = 1 := by
  refine ⟨by norm_num [pNinth], by norm_num [pNinth], floor_nine_pNinth,
    fillTarget_33_pNinth, ?_, by decide⟩
  unfold MapGrid.random_fill_percent
  rw [fillTarget_33_pNinth, if_neg (by decide), if_neg (by decide)]
  decide

/-! ## Claim C7: render/parse round trip -/

theorem splitNL_eq_single (l : List Char) (h : '\n' ∉ l) : splitNL l = [l] := by
  induction l with
  | nil => rfl
  | cons c rest ih =>
    have hc : ¬ c = '\n' := by
      intro hceq
      exact h (hceq ▸ List.mem_cons_self c rest)
    have hrest : '\n' ∉ rest := fun hm => h (List.mem_cons_of_mem c hm)
    simp only [splitNL, if_neg hc, ih hrest]

theorem splitNL_append_sep (x r : List Char) (h : '\n' ∉ x) :
    splitNL (x ++ '\n' :: r) = x :: splitNL r := by
  induction x with
  | nil => simp [splitNL]
  | cons c x' ih =>
    have hc : ¬ c = '\n' := by
      intro hceq
      exact h (hceq ▸ List.mem_cons_self c x')
    have hx' : '\n' ∉ x' := fun hm => h (List.mem_cons_of_mem c hm)
    simp only [List.cons_append, splitNL, if_neg hc, List.append_eq, ih hx']

theorem splitNL_joinSep (L : List (List Char)) (hne : L ≠ [])
    (h : ∀ l ∈ L, '\n' ∉ l) : splitNL (joinSep '\n' L) = L := by
  induction L with
  | nil => exact absurd rfl hne
  | cons x t ih =>
    cases t with
    | nil => simpa [joinSep] using splitNL_eq_single x (h x (List.mem_cons_self x []))
    | cons y t' =>
      rw [show joinSep '\n' (x :: y :: t') = x ++ '\n' :: joinSep '\n' (y :: t') from rfl]
      rw [splitNL_append_sep x _ (h x (List.mem_cons_self _ _))]
      rw [ih (by simp) (fun l hl => h l (List.mem_cons_of_mem x hl))]

theorem foldl_maxlen (f : List Char → Nat) (w : Nat) (L : List (List Char))
    (hlen : ∀ l ∈ L, f l = w) :
    ∀ a, L.foldl (fun m l => if f l > m then f l else m) a =
      if L = [] then a else max a w := by
  induction L with
  | nil => intro a; simp
  | cons l t ih =>
    intro a
    simp only [List.foldl_cons]
    rw [ih (fun m hm => hlen m (List.mem_cons_of_mem _ hm))
      (if f l > a then f l else a)]
    have hl : f l = w := hlen l (List.mem_cons_self _ _)
    simp only [List.cons_ne_nil, if_false, hl]
    split_ifs <;> simp_all <;> omega

theorem to_strings_with_length (g : MapGrid) (onc offc : Char) :
    (g.to_strings_with onc offc).length = g.cells.length := by
  simp [MapGrid.to_strings_with]

theorem to_strings_with_line_length (g : MapGrid) (onc offc : Char) (hWF : g.WF) :
    ∀ l ∈ g.to_strings_with onc offc, l.length = g.width := by
  intro l hl
  simp only [MapGrid.to_strings_with, List.mem_map] at hl
  obtain ⟨row, hrow, rfl⟩ := hl
  simp [hWF.2 row hrow]

theorem to_strings_with_chars (g : MapGrid) (onc offc : Char)
    (hvalid : ∀ c ∈ g.allCells, c.is_valid = true) :
    ∀ l ∈ g.to_strings_with onc offc, ∀ ch ∈ l, ch = onc ∨ ch = offc := by
  intro l hl ch hch
  simp only [MapGrid.to_strings_with, List.mem_map] at hl
  obtain ⟨row, hrow, rfl⟩ := hl
  rw [List.mem_map] at hch
  obtain ⟨c, hc, rfl⟩ := hch
  have hcv : c.is_valid = true :=
    hvalid c (List.mem_flatten.mpr ⟨row, hrow, hc⟩)
  rcases c with ⟨st⟩
  cases st with
  | True => left; rfl
  | False => right; rfl
  | Invalid => simp [Cell.is_valid] at hcv

/-- When both rendering characters are single-byte, every rendered line of
a no-Invalid grid measures `width` UTF-8 bytes (for a multi-byte character
the byte-based width fallback of `parse_string` diverges from the
character count — see `parse_string_roundtrip_fails_for_named_grid`). -/
theorem to_strings_with_utf8Len (g : MapGrid) (onc offc : Char) (hWF : g.WF)
    (hvalid : ∀ c ∈ g.allCells, c.is_valid = true)
    (hsz1 : onc.utf8Size = 1) (hsz2 : offc.utf8Size = 1) :
    ∀ l ∈ g.to_strings_with onc offc, utf8Len l = g.width := by
  intro l hl
  have hchars := to_strings_with_chars g onc offc hvalid l hl
  have hlen := to_strings_with_line_length g onc offc hWF l hl
  unfold utf8Len
  have hone : ∀ x ∈ l.map Char.utf8Size, x = 1 := by
    intro x hx
    rw [List.mem_map] at hx
    obtain ⟨ch, hch, rfl⟩ := hx
    rcases hchars ch hch with rfl | rfl
    · exact hsz1
    · exact hsz2
  rw [List.eq_replicate_of_mem hone, List.sum_replicate, List.length_map, hlen,
    smul_eq_mul, mul_one]

theorem listSetSelf {α : Type} (l : List α) (n : Nat) (d : α) (h : n < l.length) :
    l.set n (l.getD n d) = l := by
  induction l generalizing n with
  | nil => simp at h
  | cons b t ih =>
    cases n with
    | zero => rfl
    | succ m =>
      have hm := ih m (by simpa using h)
      rw [show (b :: t).getD (m + 1) d = t.getD m d from rfl, List.set_cons_succ, hm]

theorem listTakeSetSucc {α : Type} (l : List α) (j : Nat) (a : α) (h : j < l.length) :
    (l.set j a).take (j + 1) = l.take j ++ [a] := by
  induction l generalizing j with
  | nil => simp at h
  | cons b t ih =>
    cases j with
    | zero => rfl
    | succ m =>
      have hm := ih m (by simpa using h)
      rw [List.set_cons_succ, List.take_succ_cons, hm, List.take_succ_cons, List.cons_append]

theorem parseFillCell_valid (onc offc inv : Char) (hoo : onc ≠ offc) (x y : Nat)
    (c : Cell) (hc : c.is_valid = true) (G : MapGrid) (errs : List ParseErr) :
    parseFillCell onc offc x y (cellChar onc offc inv c) (G, errs) =
      (G.set_cell x y c, errs) := by
  rcases c with ⟨st⟩
  cases st with
  | True =>
    show parseFillCell onc offc x y onc (G, errs) = _
    unfold parseFillCell
    rw [if_pos rfl]
    rfl
  | False =>
    show parseFillCell onc offc x y offc (G, errs) = _
    unfold parseFillCell
    rw [if_neg (fun hx => hoo hx.symm), if_pos rfl]
    rfl
  | Invalid => simp [Cell.is_valid] at hc

theorem rowFill_eq (onc offc inv : Char) (hoo : onc ≠ offc) (y : Nat) :
    ∀ (rs : List Cell) (j : Nat) (G : MapGrid) (errs : List ParseErr),
      G.WF → y < G.height → j + rs.length = G.width →
      (∀ c ∈ rs, c.is_valid = true) →
      (List.enumFrom j (rs.map (cellChar onc offc inv))).foldl
        (fun acc2 xc => parseFillCell onc offc xc.1 y xc.2 acc2) (G, errs) =
      ({G with cells := G.cells.set y ((G.cells.getD y []).take j ++ rs)}, errs) := by
  intro rs
  induction rs with
  | nil =>
    intro j G errs hWF hy hj _
    have hylen : y < G.cells.length := by rw [hWF.1]; exact hy
    have hrowlen : (G.cells.getD y []).length = G.width := by
      rw [List.getD_eq_getElem _ _ hylen]
      exact hWF.2 _ (List.getElem_mem hylen)
    simp only [List.map_nil, List.enumFrom_nil, List.foldl_nil, List.append_nil]
    simp only [List.length_nil] at hj
    rw [List.take_of_length_le (by omega), listSetSelf _ _ _ hylen]
  | cons c rs' ih =>
    intro j G errs hWF hy hj hval
    have hylen : y < G.cells.length := by rw [hWF.1]; exact hy
    have hrowlen : (G.cells.getD y []).length = G.width := by
      rw [List.getD_eq_getElem _ _ hylen]
      exact hWF.2 _ (List.getElem_mem hylen)
    have hjw : j < G.width := by
      simp only [List.length_cons] at hj
      omega
    simp only [List.map_cons, List.enumFrom_cons, List.foldl_cons]
    rw [parseFillCell_valid onc offc inv hoo j y c (hval c (List.mem_cons_self _ _)) G errs]
    have hset : G.set_cell j y c =
        { G with cells := G.cells.set y ((G.cells.getD y []).set j c) } := by
      unfold MapGrid.set_cell
      rw [if_neg (by omega)]
    rw [hset]
    rw [ih (j + 1)
      ({ G with cells := G.cells.set y ((G.cells.getD y []).set j c) }) errs
      (hset ▸ MapGrid.WF_set_cell G j y c hWF) hy
      (by show j + 1 + rs'.length = G.width; simp only [List.length_cons] at hj; omega)
      (fun d hd => hval d (List.mem_cons_of_mem _ hd))]
    simp only
    rw [listGetDSet _ _ _ _ hylen, List.set_set,
      listTakeSetSucc _ _ _ (by omega), List.append_assoc, List.singleton_append]

theorem gridFill_eq (onc offc inv : Char) (hoo : onc ≠ offc) :
    ∀ (rows : List (List Cell)) (k : Nat) (G : MapGrid) (errs : List ParseErr),
      G.WF → k + rows.length = G.height →
      (∀ r ∈ rows, r.length = G.width) →
      (∀ r ∈ rows, ∀ c ∈ r, c.is_valid = true) →
      (List.enumFrom k (rows.map (fun r => r.map (cellChar onc offc inv)))).foldl
        (fun acc yl => yl.2.enum.foldl
          (fun acc2 xc => parseFillCell onc offc xc.1 yl.1 xc.2 acc2) acc) (G, errs) =
      ({G with cells := G.cells.take k ++ rows}, errs) := by
  intro rows
  induction rows with
  | nil =>
    intro k G errs hWF hk _ _
    simp only [List.map_nil, List.enumFrom_nil, List.foldl_nil, List.append_nil]
    simp only [List.length_nil] at hk
    rw [List.take_of_length_le (by rw [hWF.1]; omega)]
  | cons r rows' ih =>
    intro k G errs hWF hk hlen hval
    have hklen : k < G.cells.length := by
      rw [hWF.1]
      simp only [List.length_cons] at hk
      omega
    simp only [List.map_cons, List.enumFrom_cons, List.foldl_cons]
    rw [show (List.enum (r.map (cellChar onc offc inv))) =
      List.enumFrom 0 (r.map (cellChar onc offc inv)) from rfl]
    rw [rowFill_eq onc offc inv hoo k r 0 G errs hWF
      (by simp only [List.length_cons] at hk; omega)
      (by simp only [Nat.zero_add]; exact hlen r (List.mem_cons_self _ _))
      (hval r (List.mem_cons_self _ _))]
    simp only [List.take_zero, List.nil_append]
    have hWF1 : ({ G with cells := G.cells.set k r } : MapGrid).WF := by
      refine ⟨by simpa using hWF.1, ?_⟩
      intro rr hrr
      rcases List.mem_or_eq_of_mem_set hrr with hrr' | hreq
      · exact hWF.2 rr hrr'
      · rw [hreq]
        exact hlen r (List.mem_cons_self _ _)
    rw [ih (k + 1) ({ G with cells := G.cells.set k r }) errs hWF1
      (by show k + 1 + rows'.length = G.height; simp only [List.length_cons] at hk; omega)
      (fun rr hrr => hlen rr (List.mem_cons_of_mem _ hrr))
      (fun rr hrr => hval rr (List.mem_cons_of_mem _ hrr))]
    simp only
    rw [listTakeSetSucc _ _ _ hklen, List.append_assoc, List.singleton_append]

theorem parse_roundtrip_aux (g : MapGrid) (onc offc : Char)
    (hWF : g.WF) (hw : 3 ≤ g.width) (hh : 3 ≤ g.height) (hname : g.name = none)
    (hvalid : ∀ c ∈ g.allCells, c.is_valid = true)
    (hoo : onc ≠ offc) (hon : onc ≠ '\n') (hoff : offc ≠ '\n')
    (hsz1 : onc.utf8Size = 1) (hsz2 : offc.utf8Size = 1) :
    MapGrid.parse_string (g.to_string_with onc offc '\n') onc offc = .ok g := by
  have hLlen : (g.to_strings_with onc offc).length = g.height := by
    rw [to_strings_with_length, hWF.1]
  have hLw := to_strings_with_line_length g onc offc hWF
  have hLch := to_strings_with_chars g onc offc hvalid
  have hLnl : ∀ l ∈ g.to_strings_with onc offc, '\n' ∉ l := by
    intro l hl hch
    rcases hLch l hl '\n' hch with h | h
    · exact hon h.symm
    · exact hoff h.symm
  have hLne : g.to_strings_with onc offc ≠ [] := by
    intro h0
    rw [h0] at hLlen
    simp at hLlen
    omega
  have hsplit : splitNL (g.to_string_with onc offc '\n') = g.to_strings_with onc offc :=
    splitNL_joinSep _ hLne hLnl
  obtain ⟨l0, L', hL⟩ : ∃ l0 L', g.to_strings_with onc offc = l0 :: L' := by
    cases hcl : g.to_strings_with onc offc with
    | nil => exact absurd hcl hLne
    | cons a b => exact ⟨a, b, rfl⟩
  obtain ⟨c0, cs, hl0⟩ : ∃ c0 cs, l0 = c0 :: cs := by
    have hlen0 : l0.length = g.width := hLw l0 (hL ▸ List.mem_cons_self _ _)
    cases hcl : l0 with
    | nil =>
      rw [hcl] at hlen0
      simp at hlen0
      omega
    | cons a b => exact ⟨a, b, rfl⟩
  have hc0 : c0 = onc ∨ c0 = offc :=
    hLch l0 (hL ▸ List.mem_cons_self _ _) c0 (hl0 ▸ List.mem_cons_self _ _)
  have hinput_ne : g.to_string_with onc offc '\n' ≠ [] := by
    unfold MapGrid.to_string_with
    rw [hL, hl0]
    cases L' <;> simp [joinSep]
  have hpred1 : startsWithPred ((g.to_strings_with onc offc).headD [])
      (fun c => c != onc && c != offc && c.isAlpha) = false := by
    rw [hL, hl0]
    show (c0 != onc && c0 != offc && c0.isAlpha) = false
    rcases hc0 with rfl | rfl <;> simp
  have hpred2 : startsWithPred ((g.to_strings_with onc offc).headD [])
      (fun c => c != onc && c != offc && c.isDigit) = false := by
    rw [hL, hl0]
    show (c0 != onc && c0 != offc && c0.isDigit) = false
    rcases hc0 with rfl | rfl <;> simp
  have hLb : ∀ l ∈ g.to_strings_with onc offc, utf8Len l = g.width :=
    to_strings_with_utf8Len g onc offc hWF hvalid hsz1 hsz2
  have hmax : (g.to_strings_with onc offc).foldl
      (fun m l => if utf8Len l > m then utf8Len l else m) 0 = g.width := by
    rw [foldl_maxlen utf8Len g.width _ hLb 0, if_neg hLne]
    omega
  have hw3 : ¬ g.width < 3 := by omega
  have hh3 : ¬ g.height < 3 := by omega
  unfold MapGrid.parse_string
  rw [if_neg hinput_ne, hsplit]
  simp only [hpred1, hpred2, Bool.false_eq_true, if_false, hmax, hLlen, hw3, hh3,
    List.nil_append, ite_not]
  simp only [List.append_nil, ne_eq, not_true_eq_false, if_false, if_true]
  have hfillrw : g.to_strings_with onc offc = g.cells.map (fun r => r.map (cellChar onc offc
      (if 'X' ≠ onc ∧ 'X' ≠ offc then 'X' else if '@' ≠ onc ∧ '@' ≠ offc then '@' else '!'))) :=
    rfl
  have henum : ∀ (X : List (List Char)), X.enum = List.enumFrom 0 X := fun _ => rfl
  rw [hfillrw, henum]
  rw [gridFill_eq onc offc _ hoo g.cells 0
    ({ MapGrid.new g.width g.height with name := none }) []
    ?wf0 ?hk0 ?hlen0 ?hval0]
  case wf0 =>
    refine ⟨by simp [MapGrid.new], ?_⟩
    intro r hr
    simp only [MapGrid.new] at hr
    rw [List.eq_of_mem_replicate hr]
    simp [MapGrid.new]
  case hk0 =>
    show 0 + g.cells.length = g.height
    rw [hWF.1]
    omega
  case hlen0 =>
    intro r hr
    exact hWF.2 r hr
  case hval0 =>
    intro r hr c hc
    exact hvalid c (List.mem_flatten.mpr ⟨r, hr, hc⟩)
  simp only [List.take_zero, List.nil_append]
  rcases g with ⟨n, w, h, cs⟩
  have hw' : 3 ≤ w := hw
  have hh' : 3 ≤ h := hh
  have hn' : n = none := hname
  subst hn'
  simp [MapGrid.new, Nat.not_lt.mpr hw', Nat.not_lt.mpr hh']

/-- C7 (amended): for every *unnamed* grid (name `none`) of size at least
3×3 with no Invalid cell, rendering with any on/off characters (distinct,
neither a newline, and both *single-byte* in UTF-8) and parsing the text
back with the same characters succeeds and reproduces the grid exactly;
in particular `parse_string(as_string(g), '#', '.') = Ok(g)`.  The
single-byte restriction is forced by the byte-based width fallback (see
`parse_string_roundtrip_fails_for_named_grid`). -/
theorem parse_string_roundtrip (g : MapGrid)
    (hWF : g.WF) (hw : 3 ≤ g.width) (hh : 3 ≤ g.height) (hname : g.name = none)
    (hvalid : ∀ c ∈ g.allCells, c.is_valid = true) :
    (∀ onc offc : Char, onc ≠ offc → onc ≠ '\n' → offc ≠ '\n' →
      onc.utf8Size = 1 → offc.utf8Size = 1 →
      MapGrid.parse_string (g.to_string_with onc offc '\n') onc offc = .ok g) ∧
    MapGrid.parse_string g.as_string '#' '.' = .ok g := by
  constructor
  · intro onc offc hoo hon hoff hsz1 hsz2
    exact parse_roundtrip_aux g onc offc hWF hw hh hname hvalid hoo hon hoff hsz1 hsz2
  · exact parse_roundtrip_aux g '#' '.' hWF hw hh hname hvalid
      (by decide) (by decide) (by decide) (by decide) (by decide)

/-- C7 counterexample, both failure modes.  First: a *named* grid with no
Invalid cells does not round-trip — `as_string` renders only the cells,
`parse_string` finds no name line (every row starts with `'#'` or `'.'`),
so the parsed grid is the unnamed `gridPlain33`, and `MapGrid`'s
`PartialEq` compares the `name` field.  Second: with the two-byte off
character `'é'`, even the unnamed `gridPlain33` does not round-trip — the
width fallback folds over the *byte* length of the lines (6 bytes), so the
parse succeeds but yields the 6-wide `gridWide63`, not the original. -/
theorem parse_string_roundtrip_fails_for_named_grid :
    (gridNamed33.invalid_cells_count = 0 ∧
     MapGrid.parse_string gridNamed33.as_string '#' '.' = .ok gridPlain33 ∧
     MapGrid.parse_string gridNamed33.as_string '#' '.' ≠ .ok gridNamed33) ∧
    (('é' : Char).utf8Size = 2 ∧
     MapGrid.parse_string (gridPlain33.to_string_with '#' 'é' '\n') '#' 'é' =
       .ok gridWide63 ∧
     gridWide63.width = 6 ∧ gridPlain33.width = 3 ∧
     MapGrid.parse_string (gridPlain33.to_string_with '#' 'é' '\n') '#' 'é' ≠
       .ok gridPlain33) := by
  refine ⟨⟨by decide, by rfl, ?_⟩, by decide, by rfl, by decide, by decide, ?_⟩
  · intro hcontra
    have h2 : MapGrid.parse_string gridNamed33.as_string '#' '.' = .ok gridPlain33 := rfl
    rw [h2] at hcontra
    have h3 : gridPlain33 = gridNamed33 := Except.ok.inj hcontra
    exact absurd (congrArg MapGrid.name h3) (by decide)
  · intro hcontra
    have h2 : MapGrid.parse_string (gridPlain33.to_string_with '#' 'é' '\n') '#' 'é' =
        .ok gridWide63 := rfl
    rw [h2] at hcontra
    have h3 : gridWide63 = gridPlain33 := Except.ok.inj hcontra
    exact absurd (congrArg MapGrid.width h3) (by decide)

/-- Witness for the amended C7 on a concrete unnamed 3×3 grid. -/
theorem parse_string_roundtrip_witness :
    (gridPlain33.WF ∧ gridPlain33.name = none ∧
      (∀ c ∈ gridPlain33.allCells, c.is_valid = true)) ∧
    MapGrid.parse_string gridPlain33.as_string '#' '.' = .ok gridPlain33 := by
  have h := parse_string_roundtrip gridPlain33 (by decide) (by decide) (by decide)
    (by decide) (by decide)
  exact ⟨⟨by decide, by decide, by decide⟩, h.2⟩

end RustGrid
